import Mathlib

/-
Verification of the NapGram cross-platform relay core.

This file shallowly embeds the relevant parts of
`src/utilities/feature-kit/src/features/forward/utils/MessageUtils.ts`
(the `MessageUtils` helpers and the `ForwardFeature` class) together with the
surrounding orchestration code, and proves the specified properties about
them.  Machine integers are modelled as `Nat`/`Int` (no overflow is relevant
in the modelled code paths), promises/async control flow are modelled as
explicit state passing with a discrete clock (milliseconds, JS `Date.now()`),
and effectful steps (logging, publishing, enqueueing a send) are recorded in
an explicit ordered effect trace.
-/

namespace NapGram

/-! ## String helpers (JS primitives used by the source) -/

/-- JS `\s` whitespace class restricted to the ASCII range (the inputs in the
modelled code paths are ASCII error messages / ids). -/
def isSpaceJS (c : Char) : Bool :=
  c = ' ' || c = '\t' || c = '\n' || c = '\r' || c = '\x0b' || c = '\x0c'

/-- JS `String.prototype.trim`: strip whitespace from both ends. -/
def trimStr (s : String) : String :=
  String.mk (((s.toList.dropWhile isSpaceJS).reverse.dropWhile isSpaceJS).reverse)

/-- JS `a || b` on strings: `a` unless it is the empty string (falsy). -/
def orElseStr (a b : String) : String :=
  if a = "" then b else a

/-- JS `String.prototype.startsWith`, computed on the character lists (the
builtin byte-level `String.startsWith` does not reduce inside the kernel). -/
def startsWithStr (s pre : String) : Bool :=
  List.isPrefixOf pre.toList s.toList

/-- Decimal value of a digit run, as produced by JS `Number` on a `\d+` capture. -/
def digitsToNat (l : List Char) : Nat :=
  l.foldl (fun acc c => acc * 10 + (c.toNat - '0'.toNat)) 0

/-- Case-insensitive literal match (the `i` regex flag): if `s` starts with
`pat` up to ASCII case, return the rest of `s`. -/
def matchLitCI : List Char → List Char → Option (List Char)
  | [], s => some s
  | _ :: _, [] => none
  | p :: ps, c :: cs => if p.toLower = c.toLower then matchLitCI ps cs else none

/-- Scan a string left to right for the first position where the positional
matcher `f` succeeds, as JS `String.prototype.match` does. -/
def scanFor (f : List Char → Option Nat) : List Char → Option Nat
  | [] => f []
  | c :: cs =>
    match f (c :: cs) with
    | some n => some n
    | none => scanFor f cs

/-! ## Flood-wait error parsing

Embeds `ForwardFeature.extractFloodWaitSeconds` (MessageUtils.ts lines
272-283).  The source tries `/FLOOD_WAIT[_\s]?(\d+)/i` first and
`/A wait of (\d+) seconds/i` second, returning the captured number, and
`null` when neither matches. -/

/-- Positional matcher for `/FLOOD_WAIT[_\s]?(\d+)/i`: the literal (case
insensitive), an optional single `_`/whitespace separator (greedy, but a
separator character is never a digit so no backtracking is observable), then
a maximal nonempty digit run. -/
def floodDirectAt (l : List Char) : Option Nat :=
  match matchLitCI "FLOOD_WAIT".toList l with
  | none => none
  | some rest =>
    match rest with
    | [] => none
    | c :: rest2 =>
      if c = '_' || isSpaceJS c then
        let ds := rest2.takeWhile Char.isDigit
        if ds = [] then none else some (digitsToNat ds)
      else
        let ds := (c :: rest2).takeWhile Char.isDigit
        if ds = [] then none else some (digitsToNat ds)

/-- Positional matcher for `/A wait of (\d+) seconds/i`: the literal prefix,
a maximal nonempty digit run, then the literal ` seconds`. -/
def waitPhraseAt (l : List Char) : Option Nat :=
  match matchLitCI "A wait of ".toList l with
  | none => none
  | some rest =>
    let ds := rest.takeWhile Char.isDigit
    if ds = [] then none
    else if (matchLitCI " seconds".toList (rest.drop ds.length)).isSome then
      some (digitsToNat ds)
    else none

/-- `ForwardFeature.extractFloodWaitSeconds` (lines 272-283): parse a wait
duration in seconds out of an error message, via the two regexes above. -/
def extractFloodWaitSeconds (message : String) : Option Nat :=
  match scanFor floodDirectAt message.toList with
  | some n => some n
  | none => scanFor waitPhraseAt message.toList

end NapGram

namespace NapGram

/-! ## Outbound send queue

Embeds the `ForwardFeature` send queue (MessageUtils.ts lines 129-135,
260-270, 285-326).  A queued task is modelled by the outcome and wall-clock
duration of each of its attempts (attempts are numbered from 1, as in the
source's `attempt` counter); the scope state carries the JS `Date.now()`
clock and `nextAvailableAt`. -/

/-- `DEFAULT_TG_SEND_INTERVAL_MS` (line 129). -/
def DEFAULT_TG_SEND_INTERVAL_MS : Nat := 350

/-- `FLOOD_WAIT_BUFFER_MS` (line 130). -/
def FLOOD_WAIT_BUFFER_MS : Nat := 2000

/-- `maxAttempts` in `executeTelegramSendWithRetry` (line 286). -/
def maxAttempts : Nat := 3

/-- `ForwardFeature.getMinSendIntervalMs` (lines 266-270): 0 when
`NODE_ENV === 'test'`, otherwise the fixed default. -/
def getMinSendIntervalMs (testMode : Bool) : Nat :=
  if testMode then 0 else DEFAULT_TG_SEND_INTERVAL_MS

/-- Behaviour of one queued send task: outcome and duration of its n-th
attempt (n counted from 1). -/
structure TaskSpec (α : Type) where
  outcome : Nat → Except String α
  duration : Nat → Nat

/-- `TelegramSendQueueState` (lines 132-135) plus the JS clock. -/
structure QueueState where
  now : Nat
  nextAvailableAt : Nat
deriving DecidableEq, Repr

/-- Record of one task's execution through the queue. -/
structure TaskRun (α : Type) where
  startTime : Nat
  endTime : Nat
  floodSleeps : List Nat
  result : Except String α

/-- `ForwardFeature.executeTelegramSendWithRetry` (lines 285-305), with an
explicit clock.  `attempt` is the source's 1-based attempt counter and
`fuel` encodes `maxAttempts - attempt` (the loop retries exactly when the
parsed flood wait is truthy, i.e. some nonzero value, and
`attempt < maxAttempts`).  Returns the end time, the list of flood-wait
sleeps performed (each `seconds * 1000 + FLOOD_WAIT_BUFFER_MS`), and the
final result; a non-flood error or exhausted attempts propagate the last
error. -/
def executeTelegramSendWithRetry (task : TaskSpec α) (start attempt fuel : Nat) :
    Nat × List Nat × Except String α :=
  let tEnd := start + task.duration attempt
  match task.outcome attempt with
  | Except.ok v => (tEnd, [], Except.ok v)
  | Except.error e =>
    match fuel with
    | 0 => (tEnd, [], Except.error e)
    | fuel2 + 1 =>
      match extractFloodWaitSeconds e with
      | none => (tEnd, [], Except.error e)
      | some 0 => (tEnd, [], Except.error e)
      | some (s + 1) =>
        let w := (s + 1) * 1000 + FLOOD_WAIT_BUFFER_MS
        let rest := executeTelegramSendWithRetry task (tEnd + w) (attempt + 1) fuel2
        (rest.1, w :: rest.2.1, rest.2.2)

/-- The `run` closure inside `ForwardFeature.enqueueTelegramSend` (lines
310-321): wait out `nextAvailableAt` if it is in the future, execute the
task with retry, and on success set `nextAvailableAt = Date.now() +
minIntervalMs` (on failure the exception propagates before that assignment,
leaving `nextAvailableAt` unchanged). -/
def runQueuedSend (testMode : Bool) (st : QueueState) (task : TaskSpec α) :
    TaskRun α × QueueState :=
  let start := if st.now < st.nextAvailableAt then st.nextAvailableAt else st.now
  let r := executeTelegramSendWithRetry task start 1 (maxAttempts - 1)
  match r.2.2 with
  | Except.ok v =>
    (⟨start, r.1, r.2.1, Except.ok v⟩,
     ⟨r.1, r.1 + getMinSendIntervalMs testMode⟩)
  | Except.error e =>
    (⟨start, r.1, r.2.1, Except.error e⟩, ⟨r.1, st.nextAvailableAt⟩)

/-- Sequential execution of the promise chain built by repeated
`enqueueTelegramSend` calls (lines 307-326): `queue.chain.then(run, run)`
starts each task's `run` only once the previous chain promise has settled,
and `current.then(() => undefined, () => undefined)` swallows the outcome so
a failed task never breaks the chain for its successors.  The fold below is
that serialization made explicit. -/
def processSendQueue (testMode : Bool) (st : QueueState) :
    List (TaskSpec α) → List (TaskRun α) × QueueState
  | [] => ([], st)
  | t :: ts =>
    let pr := runQueuedSend testMode st t
    let rest := processSendQueue testMode pr.2 ts
    (pr.1 :: rest.1, rest.2)

end NapGram

namespace NapGram

/-! ## Unified message content and mention resolution

Embeds the content shapes consumed by the modelled code paths and
`MessageUtils.populateAtDisplayNames` (MessageUtils.ts lines 18-62). -/

/-- The `MessageContent` variants the modelled code paths inspect; every
other variant is `other`. -/
inductive MessageContent where
  | text (t : String)
  | atSeg (userId : String) (userName : Option String)
  | reply (messageId : String)
  | other
deriving DecidableEq, Repr

/-- Concatenated text of the `text` segments, as computed by
`msg.content.filter(c => c.type === 'text').map(...).join('')`. -/
def joinText (content : List MessageContent) : String :=
  String.join (content.filterMap fun c =>
    match c with
    | MessageContent.text t => some t
    | _ => none)

/-- Result of `qqClient.getGroupMemberInfo`: optional group card and
nickname. -/
structure MemberInfo where
  card : Option String
  nickname : Option String

/-- `memberInfo?.card?.trim()`: an absent field behaves like the empty
string under the later `||` chain. -/
def optTrim (o : Option String) : String :=
  match o with
  | some s => trimStr s
  | none => ""

/-- Plain association-list lookup modelling `nameCache.get`. -/
def assocFind : List (String × String) → String → Option String
  | [], _ => none
  | (k, v) :: rest, key => if k = key then some v else assocFind rest key

/-- The loop body of `populateAtDisplayNames` (lines 24-61) over the content
list, threading the per-message `nameCache` and recording the sequence of
`getGroupMemberInfo` lookups performed.  `lookup` is the platform client
call; `Except.error` is a thrown lookup.  Mirrors the source exactly: ids
`""`/`"all"` are skipped; a truthy cached value wins; then a nonempty trimmed
supplied name different from the raw id; then the lookup result
(`card || nickname || userId`); a failed lookup falls back to
`providedName || userId`. -/
def populateAux (lookup : String → Except Unit MemberInfo) :
    List MessageContent → List (String × String) →
    List MessageContent × List (String × String) × List String
  | [], cache => ([], cache, [])
  | c :: rest, cache =>
    match c with
    | MessageContent.atSeg userId userName =>
      if userId = "" || userId = "all" then
        let r := populateAux lookup rest cache
        (MessageContent.atSeg userId userName :: r.1, r.2.1, r.2.2)
      else
        let hit :=
          match assocFind cache userId with
          | some v => if v = "" then none else some v
          | none => none
        match hit with
        | some cached =>
          let r := populateAux lookup rest cache
          (MessageContent.atSeg userId (some cached) :: r.1, r.2.1, r.2.2)
        | none =>
          let provided := trimStr (userName.getD "")
          if provided ≠ "" ∧ provided ≠ userId then
            let r := populateAux lookup rest ((userId, provided) :: cache)
            (MessageContent.atSeg userId (some provided) :: r.1, r.2.1, r.2.2)
          else
            match lookup userId with
            | Except.ok info =>
              let resolved :=
                orElseStr (optTrim info.card) (orElseStr (optTrim info.nickname) userId)
              let r := populateAux lookup rest ((userId, resolved) :: cache)
              (MessageContent.atSeg userId (some resolved) :: r.1, r.2.1, userId :: r.2.2)
            | Except.error _ =>
              let fb := orElseStr provided userId
              let r := populateAux lookup rest ((userId, fb) :: cache)
              (MessageContent.atSeg userId (some fb) :: r.1, r.2.1, userId :: r.2.2)
    | c2 =>
      let r := populateAux lookup rest cache
      (c2 :: r.1, r.2.1, r.2.2)

/-- `MessageUtils.populateAtDisplayNames` (lines 18-62): a no-op for
non-group chats, otherwise the cache-threading loop above starting from an
empty per-message cache.  Returns the rewritten content and the lookup
log. -/
def populateAtDisplayNames (lookup : String → Except Unit MemberInfo)
    (chatType : String) (content : List MessageContent) :
    List MessageContent × List String :=
  if chatType ≠ "group" then (content, [])
  else
    let r := populateAux lookup content []
    (r.1, r.2.2)

/-- Reference resolution priority for a single user id, following the spec
sentence for mention resolution: a nonempty trimmed supplied name different
from the raw id wins, else the display-name lookup (card, then nickname),
else the raw id; a failed lookup falls back to the raw id. -/
def priorityResolve (lookup : String → Except Unit MemberInfo)
    (userId : String) (userName : Option String) : String :=
  let provided := trimStr (userName.getD "")
  if provided ≠ "" ∧ provided ≠ userId then provided
  else
    match lookup userId with
    | Except.ok info =>
      orElseStr (optTrim info.card) (orElseStr (optTrim info.nickname) userId)
    | Except.error _ => orElseStr provided userId

/-- Supplied name at the first `at` segment carrying the given user id. -/
def firstAt : List MessageContent → String → Option (Option String)
  | [], _ => none
  | MessageContent.atSeg u n :: rest, uid =>
    if u = uid then some n else firstAt rest uid
  | _ :: rest, uid => firstAt rest uid

/-- Rewrite every resolvable `at` segment's name with the per-id resolution
function `R`. -/
def specMap (R : String → String) : List MessageContent → List MessageContent :=
  List.map fun c =>
    match c with
    | MessageContent.atSeg u n =>
      if u = "" || u = "all" then MessageContent.atSeg u n
      else MessageContent.atSeg u (some (R u))
    | c2 => c2

/-- Reference (amended-claim) semantics of mention resolution: each
resolvable `at` segment receives the priority resolution of its user id
computed from the supplied name at that id's FIRST occurrence in the
message (the per-message cache makes that first resolution sticky for later
occurrences of the same id). -/
def populateSpec (lookup : String → Except Unit MemberInfo)
    (content : List MessageContent) : List MessageContent :=
  specMap
    (fun u =>
      priorityResolve lookup u
        (match firstAt content u with
         | some p => p
         | none => none))
    content

end NapGram

namespace NapGram

/-! ## Forward pair records and per-pair policy

Embeds `ForwardPairRecord` as consumed by `ForwardFeature` (optional fields
are `null`-able columns) and the mode/filter accessors
(MessageUtils.ts lines 339-349, 631-661). -/

/-- The `ForwardPairRecord` fields read by the modelled code paths. -/
structure ForwardPairRecord where
  id : Nat
  instanceId : Nat
  qqRoomId : String
  tgChatId : Int
  tgThreadId : Option Nat
  forwardMode : Option String
  nicknameMode : Option String
  ignoreSenders : Option String
  ignoreRegex : Option String
deriving DecidableEq, Repr

/-- `ForwardFeature.getForwardMode` (lines 339-341):
`pair.forwardMode || env.FORWARD_MODE` (a `null` or empty pair value falls
back to the environment default). -/
def getForwardMode (pair : ForwardPairRecord) (envForwardMode : String) : String :=
  match pair.forwardMode with
  | none => envForwardMode
  | some m => if m = "" then envForwardMode else m

/-- `forwardMode[i] === '0'`: character test on the 2-flag mode string
(an out-of-range index, JS `undefined`, is not `'0'`). -/
def modeFlagIsZero (mode : String) (i : Nat) : Bool :=
  mode.toList.get? i = some '0'

/-- Sender blocklist check (lines 631-641): split `ignoreSenders` on commas,
trim each entry, and test membership of the sender id; a `null`/empty column
blocks nobody. -/
def isBlockedSender (pair : ForwardPairRecord) (senderId : String) : Bool :=
  match pair.ignoreSenders with
  | none => false
  | some s =>
    if s = "" then false
    else (((s.splitOn ",").map trimStr).contains senderId)

/-- Result of `new RegExp(pattern)` followed by `.test`: the engine either
throws on an invalid pattern or yields a match predicate.  The regex engine
is an external primitive, supplied as an oracle. -/
inductive RegexCompile where
  | invalid
  | valid (test : String → Bool)

/-! ## Duplicate suppression

Embeds `processedMsgIds` with its 30-second `setTimeout` expiry
(MessageUtils.ts lines 148, 519-528): each mark is an `(id, expiry)` entry;
an entry is live while `now < expiry`. -/

/-- Dedup TTL: `30 * 1000` milliseconds (line 528). -/
def DEDUP_TTL_MS : Nat := 30 * 1000

/-- `processedMsgIds.has(id)` at clock `now`, under the timed-expiry model of
the `setTimeout` deletion. -/
def seenB (entries : List (String × Nat)) (id : String) (now : Nat) : Bool :=
  entries.any fun e => e.1 = id && now < e.2

/-- `processedMsgIds.add(id)` plus scheduling its deletion 30s later. -/
def markSeen (entries : List (String × Nat)) (id : String) (now : Nat) :
    List (String × Nat) :=
  (id, now + DEDUP_TTL_MS) :: entries

/-- Well-formedness of the dedup state at clock `now`: every scheduled
expiry is at most 30s in the future (true of every reachable state, since
each entry was added at a time not later than `now`). -/
def dedupWF (entries : List (String × Nat)) (now : Nat) : Prop :=
  ∀ e ∈ entries, e.2 ≤ now + DEDUP_TTL_MS

/-! ## Reply correlation store (modelled from the spec) -/

/-- Modelled from the spec: a persisted `MessageCorrelation` row
`(instanceId, roomA, nativeIdA) ↔ (chatB, nativeIdB)` written by
`ForwardMapper.saveMessage`, whose implementation is not part of the
provided sources. -/
structure MessageCorrelation where
  instanceId : Nat
  roomA : String
  nativeIdA : String
  chatB : Int
  nativeIdB : Nat
deriving DecidableEq, Repr

/-- Reply-to id referenced by a message: the `messageId` of its first
`reply` segment. -/
def findReplyId : List MessageContent → Option String
  | [] => none
  | MessageContent.reply mid :: _ => some mid
  | _ :: rest => findReplyId rest

/-- Modelled from the spec: `ReplyResolver.resolveQQReply(msg, instanceId,
roomId)`, whose implementation is not part of the provided sources — if the
inbound message references a reply-to id on its origin platform, look up the
stored correlation for `(instanceId, roomId, replyToId)` and return the
destination-platform native id; absence of either yields `none` rather than
an error. -/
def resolveQQReply (store : List MessageCorrelation) (instanceId : Nat)
    (roomId : String) (content : List MessageContent) : Option Nat :=
  match findReplyId content with
  | none => none
  | some rid =>
    match store.find? fun c =>
        c.instanceId = instanceId && c.roomA = roomId && c.nativeIdA = rid with
    | some c => some c.nativeIdB
    | none => none

/-! ## Relay orchestrator: QQ inbound (`ForwardFeature.handleQQMessage`)

Embeds lines 511-697 as a function from the inbound event and the feature's
collaborators to the ordered list of observable effects plus the updated
dedup state.  Collaborators (forward map lookup, regex engine, correlation
store, whether the eventual send succeeds) are supplied as oracles. -/

/-- Observable steps of one inbound-QQ relay, in execution order. -/
inductive Effect where
  | dropDuplicate
  | publishPlugin
  | skipCommand
  | pairLookup (chatId : String)
  | dropNoPair
  | publishGateway
  | dropModeDisabled
  | dropBlocklisted (senderId : String)
  | logInvalidRegex (pattern : String)
  | dropRegexMatched
  | populateNames
  | enqueueSend (replyTo : Option Nat)
  | saveCorrelation
deriving DecidableEq, Repr

/-- The inbound QQ event fields the orchestrator reads. -/
structure QQMsg where
  id : String
  chatId : String
  senderId : String
  content : List MessageContent
deriving DecidableEq, Repr

/-- Collaborators of `ForwardFeature.handleQQMessage`. -/
structure QQEnv where
  envForwardMode : String
  compile : String → RegexCompile
  findByQQ : String → Option ForwardPairRecord
  store : List MessageCorrelation
  sendOk : Bool

/-- Regex deduplication filter (lines 643-661): a `null`/empty column is
skipped; an invalid pattern is logged (warn) and the message falls through;
a valid pattern matching the concatenated text content drops the message.
Returns the emitted effects and whether the message is dropped. -/
def regexFilter (env : QQEnv) (pair : ForwardPairRecord) (textContent : String) :
    List Effect × Bool :=
  match pair.ignoreRegex with
  | none => ([], false)
  | some p =>
    if p = "" then ([], false)
    else
      match env.compile p with
      | RegexCompile.invalid => ([Effect.logInvalidRegex p], false)
      | RegexCompile.valid test =>
        if test textContent then ([Effect.dropRegexMatched], true) else ([], false)

/-- Policy tail of `handleQQMessage` once a pair is resolved (lines
618-690): forward-mode gate on index 0, sender blocklist, regex filter,
mention population, reply resolution, enqueue, and correlation save when the
send produced a message. -/
def qqPolicy (env : QQEnv) (msg : QQMsg) (pair : ForwardPairRecord) : List Effect :=
  if modeFlagIsZero (getForwardMode pair env.envForwardMode) 0 then
    [Effect.dropModeDisabled]
  else if isBlockedSender pair msg.senderId then
    [Effect.dropBlocklisted msg.senderId]
  else
    let rf := regexFilter env pair (joinText msg.content)
    if rf.2 then rf.1
    else
      rf.1 ++
        (Effect.populateNames ::
          Effect.enqueueSend
            (resolveQQReply env.store pair.instanceId pair.qqRoomId msg.content) ::
          (if env.sendOk then [Effect.saveCorrelation] else []))

/-- Body of `handleQQMessage` after the duplicate gate (lines 530-690):
plugin publish, command skip (on the trimmed text), pair lookup, gateway
publish, then the per-pair policy. -/
def qqPipeline (env : QQEnv) (msg : QQMsg) : List Effect :=
  Effect.publishPlugin ::
    (if startsWithStr (trimStr (joinText msg.content)) "/" then [Effect.skipCommand]
     else
       match env.findByQQ msg.chatId with
       | none => [Effect.pairLookup msg.chatId, Effect.dropNoPair]
       | some pair =>
         Effect.pairLookup msg.chatId :: Effect.publishGateway :: qqPolicy env msg pair)

/-- `ForwardFeature.handleQQMessage` (lines 511-697): the duplicate gate
runs before anything else — a seen id is dropped immediately and the state
is untouched; otherwise the id is marked seen for 30s and the pipeline
runs. -/
def handleQQMessage (env : QQEnv) (entries : List (String × Nat)) (now : Nat)
    (msg : QQMsg) : List Effect × List (String × Nat) :=
  if seenB entries msg.id now then ([Effect.dropDuplicate], entries)
  else (qqPipeline env msg, markSeen entries msg.id now)

/-! ## Relay orchestrator: Telegram inbound (`ForwardFeature.handleTgMessage`)

Embeds lines 153-212: pair lookup (thread-exact unless the thread id is
falsy), event publishes, command skip, forward-mode gate on index 1, then
the TG→QQ handler invocation. -/

/-- Observable steps of one inbound-TG relay, in execution order. -/
inductive TgEffect where
  | pairLookup (chatId : Int) (threadId : Option Nat) (allowFallback : Bool)
  | dropNoPair
  | publishPlugin
  | publishGateway
  | skipCommand
  | dropModeDisabled
  | invokeTgHandler
deriving DecidableEq, Repr

/-- The inbound TG event fields the orchestrator reads; `threadId` is the
value produced by `ThreadIdExtractor.extractFromRaw`. -/
structure TgMsg where
  id : Nat
  chatId : Int
  threadId : Option Nat
  rawText : String
deriving DecidableEq, Repr

/-- JS `!threadId` for the extracted thread id (`undefined` and `0` are
falsy). -/
def tgThreadFalsy (threadId : Option Nat) : Bool :=
  match threadId with
  | none => true
  | some n => n = 0

/-- `ForwardFeature.handleTgMessage` (lines 153-212) as an effect trace.
`findByTG` is the forward-map lookup oracle
`(chatId, threadId, allowFallback) → record`. -/
def handleTgMessage
    (envForwardMode : String)
    (findByTG : Int → Option Nat → Bool → Option ForwardPairRecord)
    (msg : TgMsg) : List TgEffect :=
  let fallback := tgThreadFalsy msg.threadId
  match findByTG msg.chatId msg.threadId fallback with
  | none => [TgEffect.pairLookup msg.chatId msg.threadId fallback, TgEffect.dropNoPair]
  | some pair =>
    TgEffect.pairLookup msg.chatId msg.threadId fallback ::
      TgEffect.publishPlugin :: TgEffect.publishGateway ::
        (if startsWithStr (trimStr msg.rawText) "/" then [TgEffect.skipCommand]
         else if modeFlagIsZero (getForwardMode pair envForwardMode) 1 then
           [TgEffect.dropModeDisabled]
         else [TgEffect.invokeTgHandler])

end NapGram

namespace NapGram

/-! ## Pair directory binding (modelled from the spec)

The `ForwardMap` implementation (`findByTG`/`findByQQ`/`add`) is not part of
the provided sources — only its callers are (the interactive bind flow in
`CommandsFeature.handleTgMessage` checks for a conflicting existing binding
and treats an `add` result pointing at a different room as a signalled
conflict).  The directory and its bind operation are therefore modelled from
the spec (§4.2). -/

/-- Modelled from the spec: one directory binding,
room on platform A ↔ (chat, optional sub-thread) on platform B. -/
structure BindRecord where
  roomIdA : String
  chatIdB : Int
  threadIdB : Option Nat
deriving DecidableEq, Repr

/-- Key equality underlying directory lookups. -/
def bindKeyMatch (chatId : Int) (threadId : Option Nat) (r : BindRecord) : Bool :=
  r.chatIdB = chatId && r.threadIdB = threadId

/-- Modelled from the spec: `bind(roomId, chatId, threadId?) → record` — if
an existing binding for `(chatId, threadId)` points to a different room,
return the existing record without modification (conflict signalled to the
caller, no partial state); otherwise create or upsert.  Returns the record
handed to the caller and the directory afterwards. -/
def bind (dir : List BindRecord) (roomId : String) (chatId : Int)
    (threadId : Option Nat) : BindRecord × List BindRecord :=
  match dir.find? (bindKeyMatch chatId threadId) with
  | some r => (r, dir)
  | none =>
    let r : BindRecord := ⟨roomId, chatId, threadId⟩
    (r, dir ++ [r])

/-- Directory invariant: at most one record per `(chatIdB, threadIdB)`
destination. -/
def atMostOneBinding (dir : List BindRecord) : Prop :=
  ∀ chatId threadId, (dir.filter (bindKeyMatch chatId threadId)).length ≤ 1

end NapGram

namespace NapGram

/-! ## Concrete inputs used by witnesses and counterexamples -/

/-- A slow task that fails on every attempt with a non-flood error. -/
def c1TaskSlow : TaskSpec Nat :=
  ⟨fun _ => Except.error "socket hang up", fun _ => 100⟩

/-- A fast task that succeeds immediately. -/
def c1TaskFast : TaskSpec Nat :=
  ⟨fun _ => Except.ok 7, fun _ => 5⟩

/-- A task that succeeds immediately taking 40 ms. -/
def c3Task : TaskSpec Nat :=
  ⟨fun _ => Except.ok 9, fun _ => 40⟩

/-- A task failing every attempt with a `FLOOD_WAIT_0` error message. -/
def c2ZeroTask : TaskSpec Nat :=
  ⟨fun _ => Except.error "FLOOD_WAIT_0", fun _ => 1⟩

/-- A task failing every attempt with a `FLOOD_WAIT_5` error message. -/
def c2FloodTask : TaskSpec Nat :=
  ⟨fun _ => Except.error "FLOOD_WAIT_5", fun _ => 10⟩

/-- A task failing with an ordinary transport error. -/
def c2PlainTask : TaskSpec Nat :=
  ⟨fun _ => Except.error "connection reset", fun _ => 10⟩

/-- A task failing with a prose flood-wait message carrying 0 seconds. -/
def c10ZeroTask : TaskSpec Nat :=
  ⟨fun _ => Except.error "A wait of 0 seconds is required (caused by SendMessage)",
   fun _ => 3⟩

/-- Dedup state with the id `"m1"` marked seen at time 0. -/
def c4Entries : List (String × Nat) := markSeen [] "m1" 0

/-- An inbound QQ message with id `"m1"`. -/
def c4Msg : QQMsg := ⟨"m1", "room1", "u1", [MessageContent.text "hi"]⟩

/-- An environment with no pairs configured. -/
def c4Env : QQEnv := ⟨"11", fun _ => RegexCompile.invalid, fun _ => none, [], true⟩

/-- A pair that forwards only TG→QQ. -/
def c5PairQQ : ForwardPairRecord :=
  ⟨1, 1, "room1", 100, none, some "01", none, none, none⟩

/-- A pair that forwards only QQ→TG. -/
def c5PairTG : ForwardPairRecord :=
  ⟨2, 1, "room2", 200, none, some "10", none, none, none⟩

/-- Environment whose forward map binds every QQ chat to `c5PairQQ`. -/
def c5Env : QQEnv := ⟨"11", fun _ => RegexCompile.invalid, fun _ => some c5PairQQ, [], true⟩

/-- An inbound QQ message for the C5 witness. -/
def c5Msg : QQMsg := ⟨"q1", "room1", "u1", [MessageContent.text "hello"]⟩

/-- An inbound TG message for the C5 witness. -/
def c5TgMsg : TgMsg := ⟨11, 200, none, "hello"⟩

/-- A pair carrying an invalid `ignoreRegex` pattern. -/
def c7Pair : ForwardPairRecord :=
  ⟨7, 1, "room7", 700, none, some "11", none, none, some "("⟩

/-- Environment whose regex engine rejects every pattern (as `new RegExp`
does for `"("`) and whose forward map binds every QQ chat to `c7Pair`. -/
def c7Env : QQEnv :=
  ⟨"11", fun _ => RegexCompile.invalid, fun _ => some c7Pair, [], true⟩

/-- First inbound message for the C7 run. -/
def c7Msg1 : QQMsg := ⟨"m1", "room7", "u1", [MessageContent.text "hello"]⟩

/-- Second inbound message, same pair, 1s later. -/
def c7Msg2 : QQMsg := ⟨"m2", "room7", "u1", [MessageContent.text "world"]⟩

/-- An inbound QQ message replying to an uncorrelated id. -/
def c9Msg : QQMsg :=
  ⟨"q9", "room9", "u9",
   [MessageContent.reply "orig-1", MessageContent.text "re: hi"]⟩

/-- A pair for the C9 witness. -/
def c9Pair : ForwardPairRecord :=
  ⟨9, 1, "room9", 900, none, some "11", none, none, none⟩

/-- Environment with an empty correlation store binding every QQ chat to
`c9Pair`. -/
def c9Env : QQEnv :=
  ⟨"11", fun _ => RegexCompile.invalid, fun _ => some c9Pair, [], true⟩

/-- Directory holding the binding room 5 ↔ chat 100 (no thread). -/
def c6Dir : List BindRecord := [⟨"5", 100, none⟩]

/-- A member-info lookup that always throws. -/
def c8LookupFail : String → Except Unit MemberInfo := fun _ => Except.error ()

/-- Two `at` segments for the same user, each carrying its own supplied
name. -/
def c8Content : List MessageContent :=
  [MessageContent.atSeg "5" (some "Alice"), MessageContent.atSeg "5" (some "Bob")]

/-- A lookup oracle knowing the display names of user 9. -/
def c8Lookup : String → Except Unit MemberInfo :=
  fun u => if u = "9" then Except.ok ⟨some " Card ", some "Nick"⟩ else Except.error ()

/-- Content mentioning user 9 twice, the second time with its own name. -/
def c8WContent : List MessageContent :=
  [MessageContent.atSeg "9" none, MessageContent.text "hi",
   MessageContent.atSeg "9" (some "Zed")]

end NapGram



namespace NapGram

/-! ## Send queue lemmas -/

theorem exec_ok (task : TaskSpec α) (start attempt fuel : Nat) (v : α)
    (h : task.outcome attempt = Except.ok v) :
    executeTelegramSendWithRetry task start attempt fuel =
      (start + task.duration attempt, [], Except.ok v) := by
  rw [executeTelegramSendWithRetry.eq_def, h]

theorem exec_error_fuel0 (task : TaskSpec α) (start attempt : Nat) (e : String)
    (h : task.outcome attempt = Except.error e) :
    executeTelegramSendWithRetry task start attempt 0 =
      (start + task.duration attempt, [], Except.error e) := by
  rw [executeTelegramSendWithRetry.eq_def, h]

theorem exec_error_unrecognized (task : TaskSpec α) (start attempt fuel : Nat)
    (e : String) (h : task.outcome attempt = Except.error e)
    (hx : extractFloodWaitSeconds e = none) :
    executeTelegramSendWithRetry task start attempt fuel =
      (start + task.duration attempt, [], Except.error e) := by
  cases fuel with
  | zero => exact exec_error_fuel0 task start attempt e h
  | succ f =>
    rw [executeTelegramSendWithRetry.eq_def, h]
    dsimp only
    rw [hx]

theorem exec_error_zero (task : TaskSpec α) (start attempt fuel : Nat)
    (e : String) (h : task.outcome attempt = Except.error e)
    (hx : extractFloodWaitSeconds e = some 0) :
    executeTelegramSendWithRetry task start attempt fuel =
      (start + task.duration attempt, [], Except.error e) := by
  cases fuel with
  | zero => exact exec_error_fuel0 task start attempt e h
  | succ f =>
    rw [executeTelegramSendWithRetry.eq_def, h]
    dsimp only
    rw [hx]

theorem exec_error_retry (task : TaskSpec α) (start attempt fuel2 : Nat)
    (e : String) (s : Nat) (h : task.outcome attempt = Except.error e)
    (hx : extractFloodWaitSeconds e = some (s + 1)) :
    executeTelegramSendWithRetry task start attempt (fuel2 + 1) =
      ((executeTelegramSendWithRetry task
          (start + task.duration attempt + ((s + 1) * 1000 + FLOOD_WAIT_BUFFER_MS))
          (attempt + 1) fuel2).1,
       ((s + 1) * 1000 + FLOOD_WAIT_BUFFER_MS) ::
         (executeTelegramSendWithRetry task
           (start + task.duration attempt + ((s + 1) * 1000 + FLOOD_WAIT_BUFFER_MS))
           (attempt + 1) fuel2).2.1,
       (executeTelegramSendWithRetry task
         (start + task.duration attempt + ((s + 1) * 1000 + FLOOD_WAIT_BUFFER_MS))
         (attempt + 1) fuel2).2.2) := by
  rw [executeTelegramSendWithRetry.eq_def, h]
  dsimp only
  rw [hx]

theorem exec_end_ge (task : TaskSpec α) :
    ∀ (fuel start attempt : Nat),
      start ≤ (executeTelegramSendWithRetry task start attempt fuel).1 := by
  intro fuel
  induction fuel with
  | zero =>
    intro start attempt
    cases h : task.outcome attempt with
    | ok v => rw [exec_ok task start attempt 0 v h]; simp
    | error e => rw [exec_error_fuel0 task start attempt e h]; simp
  | succ f ih =>
    intro start attempt
    cases h : task.outcome attempt with
    | ok v => rw [exec_ok task start attempt (f + 1) v h]; simp
    | error e =>
      cases hx : extractFloodWaitSeconds e with
      | none => rw [exec_error_unrecognized task start attempt (f + 1) e h hx]; simp
      | some s =>
        cases s with
        | zero => rw [exec_error_zero task start attempt (f + 1) e h hx]; simp
        | succ k =>
          rw [exec_error_retry task start attempt f e k h hx]
          refine le_trans ?_ (ih _ _)
          omega

theorem runQueuedSend_start (testMode : Bool) (st : QueueState) (task : TaskSpec α) :
    (runQueuedSend testMode st task).1.startTime =
      if st.now < st.nextAvailableAt then st.nextAvailableAt else st.now := by
  simp only [runQueuedSend]
  cases h : (executeTelegramSendWithRetry task
      (if st.now < st.nextAvailableAt then st.nextAvailableAt else st.now) 1
      (maxAttempts - 1)).2.2 <;> simp [h]

theorem runQueuedSend_result (testMode : Bool) (st : QueueState) (task : TaskSpec α) :
    (runQueuedSend testMode st task).1.result =
      (executeTelegramSendWithRetry task (runQueuedSend testMode st task).1.startTime 1
        (maxAttempts - 1)).2.2 := by
  rw [runQueuedSend_start]
  simp only [runQueuedSend]
  cases h : (executeTelegramSendWithRetry task
      (if st.now < st.nextAvailableAt then st.nextAvailableAt else st.now) 1
      (maxAttempts - 1)).2.2 <;> simp [h]

theorem runQueuedSend_now (testMode : Bool) (st : QueueState) (task : TaskSpec α) :
    (runQueuedSend testMode st task).2.now = (runQueuedSend testMode st task).1.endTime := by
  simp only [runQueuedSend]
  cases h : (executeTelegramSendWithRetry task
      (if st.now < st.nextAvailableAt then st.nextAvailableAt else st.now) 1
      (maxAttempts - 1)).2.2 <;> simp [h]

theorem runQueuedSend_end (testMode : Bool) (st : QueueState) (task : TaskSpec α) :
    (runQueuedSend testMode st task).1.endTime =
      (executeTelegramSendWithRetry task (runQueuedSend testMode st task).1.startTime 1
        (maxAttempts - 1)).1 := by
  rw [runQueuedSend_start]
  simp only [runQueuedSend]
  cases h : (executeTelegramSendWithRetry task
      (if st.now < st.nextAvailableAt then st.nextAvailableAt else st.now) 1
      (maxAttempts - 1)).2.2 <;> simp [h]

theorem runQueuedSend_start_ge (testMode : Bool) (st : QueueState) (task : TaskSpec α) :
    st.now ≤ (runQueuedSend testMode st task).1.startTime := by
  rw [runQueuedSend_start]
  split <;> omega

theorem runQueuedSend_end_ge (testMode : Bool) (st : QueueState) (task : TaskSpec α) :
    (runQueuedSend testMode st task).1.startTime ≤
      (runQueuedSend testMode st task).1.endTime := by
  rw [runQueuedSend_end]
  exact exec_end_ge task _ _ _

theorem processSendQueue_length (testMode : Bool) (st : QueueState)
    (tasks : List (TaskSpec α)) :
    (processSendQueue testMode st tasks).1.length = tasks.length := by
  induction tasks generalizing st with
  | nil => simp [processSendQueue]
  | cons t ts ih => simp [processSendQueue, ih]

theorem processSendQueue_start_ge (testMode : Bool) :
    ∀ (tasks : List (TaskSpec α)) (st : QueueState),
      ∀ r ∈ (processSendQueue testMode st tasks).1, st.now ≤ r.startTime := by
  intro tasks
  induction tasks with
  | nil => intro st r hr; simp [processSendQueue] at hr
  | cons t ts ih =>
    intro st r hr
    simp only [processSendQueue, List.mem_cons] at hr
    rcases hr with rfl | hr
    · exact runQueuedSend_start_ge testMode st t
    · refine le_trans ?_ (ih _ r hr)
      rw [runQueuedSend_now]
      exact le_trans (runQueuedSend_start_ge testMode st t)
        (runQueuedSend_end_ge testMode st t)

end NapGram

namespace NapGram

theorem processSendQueue_serial (testMode : Bool) :
    ∀ (tasks : List (TaskSpec α)) (st : QueueState) (i j : Nat)
      (hi : i < (processSendQueue testMode st tasks).1.length)
      (hj : j < (processSendQueue testMode st tasks).1.length), i < j →
      ((processSendQueue testMode st tasks).1.get ⟨i, hi⟩).endTime ≤
        ((processSendQueue testMode st tasks).1.get ⟨j, hj⟩).startTime := by
  intro tasks
  induction tasks with
  | nil =>
    intro st i j hi hj hij
    simp [processSendQueue] at hi
  | cons t ts ih =>
    intro st i j hi hj hij
    simp only [processSendQueue] at hi hj ⊢
    cases i with
    | zero =>
      cases j with
      | zero => omega
      | succ j2 =>
        simp only [List.length_cons] at hj
        simp only [List.get_cons_zero, List.get_cons_succ]
        have hmem : (processSendQueue testMode (runQueuedSend testMode st t).2 ts).1.get
            ⟨j2, by omega⟩ ∈ (processSendQueue testMode (runQueuedSend testMode st t).2 ts).1 :=
          List.get_mem _ _ _
        have h1 := processSendQueue_start_ge testMode ts (runQueuedSend testMode st t).2 _ hmem
        rw [runQueuedSend_now] at h1
        exact h1
    | succ i2 =>
      cases j with
      | zero => omega
      | succ j2 =>
        simp only [List.length_cons] at hi hj
        simp only [List.get_cons_succ]
        exact ih (runQueuedSend testMode st t).2 i2 j2 (by omega) (by omega) (by omega)

theorem processSendQueue_result (testMode : Bool) :
    ∀ (tasks : List (TaskSpec α)) (st : QueueState) (i : Nat)
      (hi : i < (processSendQueue testMode st tasks).1.length)
      (ht : i < tasks.length),
      ((processSendQueue testMode st tasks).1.get ⟨i, hi⟩).result =
        (executeTelegramSendWithRetry (tasks.get ⟨i, ht⟩)
          ((processSendQueue testMode st tasks).1.get ⟨i, hi⟩).startTime 1
          (maxAttempts - 1)).2.2 := by
  intro tasks
  induction tasks with
  | nil =>
    intro st i hi ht
    simp at ht
  | cons t ts ih =>
    intro st i hi ht
    cases i with
    | zero =>
      simp only [processSendQueue, List.get_cons_zero]
      exact runQueuedSend_result testMode st t
    | succ i2 =>
      simp only [List.length_cons] at ht
      simp only [processSendQueue, List.get_cons_succ]
      exact ih (runQueuedSend testMode st t).2 i2
        (by rw [processSendQueue_length]; omega) (by omega)

/-- Claim C1: tasks enqueued on the same send-queue scope run strictly in
enqueue order — the run list has one run per task in order, the i-th run is
an execution of the i-th task, and for `i < j` the j-th run starts no
earlier than the i-th run settles, for every assignment of attempt durations
and outcomes (so a slow first task still runs to completion before a fast
second task starts, and a failed task never prevents later tasks from
running). -/
theorem claim_C1_send_queue_serialization (α : Type) (testMode : Bool)
    (st : QueueState) (tasks : List (TaskSpec α)) :
    ((processSendQueue testMode st tasks).1.length = tasks.length) ∧
    (∀ (i j : Nat) (hi : i < (processSendQueue testMode st tasks).1.length)
        (hj : j < (processSendQueue testMode st tasks).1.length), i < j →
        ((processSendQueue testMode st tasks).1.get ⟨i, hi⟩).endTime ≤
          ((processSendQueue testMode st tasks).1.get ⟨j, hj⟩).startTime) ∧
    (∀ (i : Nat) (hi : i < (processSendQueue testMode st tasks).1.length)
        (ht : i < tasks.length),
        ((processSendQueue testMode st tasks).1.get ⟨i, hi⟩).result =
          (executeTelegramSendWithRetry (tasks.get ⟨i, ht⟩)
            ((processSendQueue testMode st tasks).1.get ⟨i, hi⟩).startTime 1
            (maxAttempts - 1)).2.2) :=
  ⟨processSendQueue_length testMode st tasks,
   fun i j hi hj hij => processSendQueue_serial testMode tasks st i j hi hj hij,
   fun i hi ht => processSendQueue_result testMode tasks st i hi ht⟩

/-- Witness for C1: with a slow failing first task and a fast second task,
the second run still starts only after the first settles, and both tasks
produce a run. -/
theorem claim_C1_send_queue_serialization_witness :
    ((processSendQueue true ⟨0, 0⟩ [c1TaskSlow, c1TaskFast]).1.length = 2) ∧
    ((processSendQueue true ⟨0, 0⟩ [c1TaskSlow, c1TaskFast]).1.get
        ⟨0, by decide⟩).endTime ≤
      ((processSendQueue true ⟨0, 0⟩ [c1TaskSlow, c1TaskFast]).1.get
        ⟨1, by decide⟩).startTime :=
  ⟨(claim_C1_send_queue_serialization Nat true ⟨0, 0⟩ [c1TaskSlow, c1TaskFast]).1,
   (claim_C1_send_queue_serialization Nat true ⟨0, 0⟩ [c1TaskSlow, c1TaskFast]).2.1
     0 1 (by decide) (by decide) (by decide)⟩

/-- Claim C3: before a queued task runs, a `now` earlier than the scope's
`nextAvailableAt` suspends it until exactly that time (otherwise it starts
immediately); the run's result is the task's retry-execution result, and on
success `nextAvailableAt` becomes the completion time plus the minimum send
interval, which is 0 in test mode and the fixed positive default (350 ms)
otherwise. -/
theorem claim_C3_interval_pacing (α : Type) (testMode : Bool) (st : QueueState)
    (task : TaskSpec α) :
    ((st.now < st.nextAvailableAt →
        (runQueuedSend testMode st task).1.startTime = st.nextAvailableAt) ∧
      (¬ st.now < st.nextAvailableAt →
        (runQueuedSend testMode st task).1.startTime = st.now)) ∧
    (runQueuedSend testMode st task).2.now = (runQueuedSend testMode st task).1.endTime ∧
    (runQueuedSend testMode st task).1.result =
      (executeTelegramSendWithRetry task (runQueuedSend testMode st task).1.startTime 1
        (maxAttempts - 1)).2.2 ∧
    (∀ v : α, (runQueuedSend testMode st task).1.result = Except.ok v →
      (runQueuedSend testMode st task).2.nextAvailableAt =
        (runQueuedSend testMode st task).1.endTime + getMinSendIntervalMs testMode) ∧
    getMinSendIntervalMs true = 0 ∧
    getMinSendIntervalMs false = DEFAULT_TG_SEND_INTERVAL_MS ∧
    0 < DEFAULT_TG_SEND_INTERVAL_MS := by
  refine ⟨⟨?_, ?_⟩, runQueuedSend_now testMode st task,
    runQueuedSend_result testMode st task, ?_, rfl, rfl, by decide⟩
  · intro h; rw [runQueuedSend_start]; simp [h]
  · intro h; rw [runQueuedSend_start]; simp [h]
  · intro v hv
    simp only [runQueuedSend] at hv ⊢
    cases he : (executeTelegramSendWithRetry task
        (if st.now < st.nextAvailableAt then st.nextAvailableAt else st.now) 1
        (maxAttempts - 1)).2.2 with
    | error e =>
      rw [he] at hv
      simp at hv
    | ok v2 => simp [he]

/-- Witness for C3: starting at `now = 0` with `nextAvailableAt = 10`, the
task is suspended until 10, and after its success `nextAvailableAt` is the
completion time plus the (test-mode) minimum interval. -/
theorem claim_C3_interval_pacing_witness :
    (runQueuedSend true ⟨0, 10⟩ c3Task).1.startTime = 10 ∧
    (runQueuedSend true ⟨0, 10⟩ c3Task).2.nextAvailableAt =
      (runQueuedSend true ⟨0, 10⟩ c3Task).1.endTime + getMinSendIntervalMs true :=
  ⟨(claim_C3_interval_pacing Nat true ⟨0, 10⟩ c3Task).1.1 (by decide),
   (claim_C3_interval_pacing Nat true ⟨0, 10⟩ c3Task).2.2.2.1 9 rfl⟩

end NapGram

namespace NapGram

/-- Counterexample to claim C2 as stated: an error message containing the
token `FLOOD_WAIT_0` carries a parsed wait of 0 seconds, yet the queue does
not sleep `0 * 1000 + buffer` and retry — the error propagates on the first
attempt with no flood sleep at all (`!floodWaitSeconds` treats the parsed 0
like an unrecognized error). -/
theorem claim_C2_counterexample :
    extractFloodWaitSeconds "FLOOD_WAIT_0" = some 0 ∧
    executeTelegramSendWithRetry c2ZeroTask 0 1 (maxAttempts - 1) =
      (1, [], Except.error "FLOOD_WAIT_0") :=
  ⟨by decide, rfl⟩

/-- Claim C2 (amended): for every queued send task, a failure whose message
parses to a flood wait of `s ≥ 1` seconds makes the queue sleep
`s * 1000 + FLOOD_WAIT_BUFFER_MS` and retry the same task; with recognized
positive flood-wait failures on every attempt the task is attempted exactly
`maxAttempts = 3` times, performing two flood sleeps, and the last error is
propagated; an error not recognized as a positive flood wait propagates
immediately on the first attempt without any retry or sleep. -/
theorem claim_C2_amended_flood_retry :
    (∀ (α : Type) (task : TaskSpec α) (start : Nat) (e : String) (s : Nat),
        task.outcome 1 = Except.error e →
        extractFloodWaitSeconds e = some s → s ≠ 0 →
        executeTelegramSendWithRetry task start 1 (maxAttempts - 1) =
          ((executeTelegramSendWithRetry task
              (start + task.duration 1 + (s * 1000 + FLOOD_WAIT_BUFFER_MS)) 2
              (maxAttempts - 2)).1,
           (s * 1000 + FLOOD_WAIT_BUFFER_MS) ::
             (executeTelegramSendWithRetry task
               (start + task.duration 1 + (s * 1000 + FLOOD_WAIT_BUFFER_MS)) 2
               (maxAttempts - 2)).2.1,
           (executeTelegramSendWithRetry task
             (start + task.duration 1 + (s * 1000 + FLOOD_WAIT_BUFFER_MS)) 2
             (maxAttempts - 2)).2.2)) ∧
    (∀ (α : Type) (task : TaskSpec α) (start : Nat) (e1 e2 e3 : String)
        (s1 s2 : Nat),
        task.outcome 1 = Except.error e1 →
        extractFloodWaitSeconds e1 = some s1 → s1 ≠ 0 →
        task.outcome 2 = Except.error e2 →
        extractFloodWaitSeconds e2 = some s2 → s2 ≠ 0 →
        task.outcome 3 = Except.error e3 →
        (executeTelegramSendWithRetry task start 1 (maxAttempts - 1)).2.2 =
            Except.error e3 ∧
          (executeTelegramSendWithRetry task start 1 (maxAttempts - 1)).2.1 =
            [s1 * 1000 + FLOOD_WAIT_BUFFER_MS, s2 * 1000 + FLOOD_WAIT_BUFFER_MS]) ∧
    (∀ (α : Type) (task : TaskSpec α) (start : Nat) (e : String),
        task.outcome 1 = Except.error e →
        extractFloodWaitSeconds e = none →
        executeTelegramSendWithRetry task start 1 (maxAttempts - 1) =
          (start + task.duration 1, [], Except.error e)) := by
  refine ⟨?_, ?_, ?_⟩
  · intro α task start e s h1 hx hs
    obtain ⟨k, rfl⟩ : ∃ k, s = k + 1 := ⟨s - 1, by omega⟩
    exact exec_error_retry task start 1 1 e k h1 hx
  · intro α task start e1 e2 e3 s1 s2 h1 hx1 hs1 h2 hx2 hs2 h3
    obtain ⟨k1, rfl⟩ : ∃ k, s1 = k + 1 := ⟨s1 - 1, by omega⟩
    obtain ⟨k2, rfl⟩ : ∃ k, s2 = k + 1 := ⟨s2 - 1, by omega⟩
    rw [show maxAttempts - 1 = 1 + 1 from rfl,
      exec_error_retry task start 1 1 e1 k1 h1 hx1,
      show (1 : Nat) = 0 + 1 from rfl,
      exec_error_retry task _ 2 0 e2 k2 h2 hx2,
      exec_error_fuel0 task _ 3 e3 h3]
    exact ⟨rfl, rfl⟩
  · intro α task start e h1 hx
    exact exec_error_unrecognized task start 1 (maxAttempts - 1) e h1 hx

/-- Witness for the amended C2: a task that always fails with
`FLOOD_WAIT_5` is attempted 3 times, sleeps `5*1000 + 2000` twice, and
propagates the last error; an unrecognized error propagates immediately. -/
theorem claim_C2_amended_flood_retry_witness :
    ((executeTelegramSendWithRetry c2FloodTask 0 1 (maxAttempts - 1)).2.2 =
        Except.error "FLOOD_WAIT_5" ∧
      (executeTelegramSendWithRetry c2FloodTask 0 1 (maxAttempts - 1)).2.1 =
        [5 * 1000 + FLOOD_WAIT_BUFFER_MS, 5 * 1000 + FLOOD_WAIT_BUFFER_MS]) ∧
    executeTelegramSendWithRetry c2PlainTask 0 1 (maxAttempts - 1) =
      (0 + c2PlainTask.duration 1, [], Except.error "connection reset") :=
  ⟨claim_C2_amended_flood_retry.2.1 Nat c2FloodTask 0 "FLOOD_WAIT_5" "FLOOD_WAIT_5"
      "FLOOD_WAIT_5" 5 5 rfl (by decide) (by decide) rfl (by decide) (by decide) rfl,
   claim_C2_amended_flood_retry.2.2 Nat c2PlainTask 0 "connection reset" rfl (by decide)⟩

/-- Claim C10: a send failure whose message parses to a flood wait of
exactly 0 seconds is treated like an unrecognized error — no sleep, no
retry, the error propagates to the caller on the first attempt. -/
theorem claim_C10_zero_flood_wait_not_retried (α : Type) (task : TaskSpec α)
    (start : Nat) (e : String) :
    task.outcome 1 = Except.error e →
    (extractFloodWaitSeconds e = some 0 ∨ extractFloodWaitSeconds e = none) →
    executeTelegramSendWithRetry task start 1 (maxAttempts - 1) =
      (start + task.duration 1, [], Except.error e) := by
  intro h1 hx
  rcases hx with hx | hx
  · exact exec_error_zero task start 1 (maxAttempts - 1) e h1 hx
  · exact exec_error_unrecognized task start 1 (maxAttempts - 1) e h1 hx

/-- Witness for C10: the prose shape `A wait of 0 seconds` parses to 0 and
the failure propagates on the first attempt. -/
theorem claim_C10_zero_flood_wait_not_retried_witness :
    executeTelegramSendWithRetry c10ZeroTask 5 1 (maxAttempts - 1) =
      (5 + c10ZeroTask.duration 1, [],
        Except.error "A wait of 0 seconds is required (caused by SendMessage)") :=
  claim_C10_zero_flood_wait_not_retried Nat c10ZeroTask 5
    "A wait of 0 seconds is required (caused by SendMessage)" rfl
    (Or.inl (by decide))

end NapGram

namespace NapGram

/-! ## Orchestrator lemmas -/

theorem handleQQ_seen (env : QQEnv) (entries : List (String × Nat)) (now : Nat)
    (msg : QQMsg) (h : seenB entries msg.id now = true) :
    handleQQMessage env entries now msg = ([Effect.dropDuplicate], entries) := by
  simp [handleQQMessage, h]

theorem handleQQ_new (env : QQEnv) (entries : List (String × Nat)) (now : Nat)
    (msg : QQMsg) (h : seenB entries msg.id now = false) :
    handleQQMessage env entries now msg =
      (qqPipeline env msg, markSeen entries msg.id now) := by
  simp [handleQQMessage, h]

theorem qqPipeline_command (env : QQEnv) (msg : QQMsg)
    (h : startsWithStr (trimStr (joinText msg.content)) "/" = true) :
    qqPipeline env msg = [Effect.publishPlugin, Effect.skipCommand] := by
  simp [qqPipeline, h]

theorem qqPipeline_noPair (env : QQEnv) (msg : QQMsg)
    (hc : startsWithStr (trimStr (joinText msg.content)) "/" = false)
    (hp : env.findByQQ msg.chatId = none) :
    qqPipeline env msg =
      [Effect.publishPlugin, Effect.pairLookup msg.chatId, Effect.dropNoPair] := by
  simp [qqPipeline, hc, hp]

theorem qqPipeline_pair (env : QQEnv) (msg : QQMsg) (pair : ForwardPairRecord)
    (hc : startsWithStr (trimStr (joinText msg.content)) "/" = false)
    (hp : env.findByQQ msg.chatId = some pair) :
    qqPipeline env msg =
      Effect.publishPlugin :: Effect.pairLookup msg.chatId ::
        Effect.publishGateway :: qqPolicy env msg pair := by
  simp [qqPipeline, hc, hp]

theorem qqPolicy_mode_drop (env : QQEnv) (msg : QQMsg) (pair : ForwardPairRecord)
    (h : modeFlagIsZero (getForwardMode pair env.envForwardMode) 0 = true) :
    qqPolicy env msg pair = [Effect.dropModeDisabled] := by
  simp [qqPolicy, h]

theorem qqPolicy_blocked (env : QQEnv) (msg : QQMsg) (pair : ForwardPairRecord)
    (h0 : modeFlagIsZero (getForwardMode pair env.envForwardMode) 0 = false)
    (h1 : isBlockedSender pair msg.senderId = true) :
    qqPolicy env msg pair = [Effect.dropBlocklisted msg.senderId] := by
  simp [qqPolicy, h0, h1]

theorem qqPolicy_regex_drop (env : QQEnv) (msg : QQMsg) (pair : ForwardPairRecord)
    (h0 : modeFlagIsZero (getForwardMode pair env.envForwardMode) 0 = false)
    (h1 : isBlockedSender pair msg.senderId = false)
    (h2 : (regexFilter env pair (joinText msg.content)).2 = true) :
    qqPolicy env msg pair = (regexFilter env pair (joinText msg.content)).1 := by
  simp [qqPolicy, h0, h1, h2]

theorem qqPolicy_send (env : QQEnv) (msg : QQMsg) (pair : ForwardPairRecord)
    (h0 : modeFlagIsZero (getForwardMode pair env.envForwardMode) 0 = false)
    (h1 : isBlockedSender pair msg.senderId = false)
    (h2 : (regexFilter env pair (joinText msg.content)).2 = false) :
    qqPolicy env msg pair =
      (regexFilter env pair (joinText msg.content)).1 ++
        (Effect.populateNames ::
          Effect.enqueueSend
            (resolveQQReply env.store pair.instanceId pair.qqRoomId msg.content) ::
          (if env.sendOk then [Effect.saveCorrelation] else [])) := by
  simp [qqPolicy, h0, h1, h2]

theorem regexFilter_invalid (env : QQEnv) (pair : ForwardPairRecord) (t : String)
    (p : String) (hr : pair.ignoreRegex = some p) (hp : p ≠ "")
    (hc : env.compile p = RegexCompile.invalid) :
    regexFilter env pair t = ([Effect.logInvalidRegex p], false) := by
  simp [regexFilter, hr, hp, hc]

theorem regexFilter_fst_no_send (env : QQEnv) (pair : ForwardPairRecord)
    (t : String) (r : Option Nat) :
    Effect.enqueueSend r ∉ (regexFilter env pair t).1 := by
  rw [regexFilter]
  rcases pair.ignoreRegex with _ | p
  · simp
  · simp only []
    split
    · simp
    · rcases env.compile p with _ | test
      · simp
      · simp only []
        split <;> simp

theorem enqueue_not_mem_qqPolicy_of_blocked (env : QQEnv) (msg : QQMsg)
    (pair : ForwardPairRecord) (h1 : isBlockedSender pair msg.senderId = true)
    (r : Option Nat) : Effect.enqueueSend r ∉ qqPolicy env msg pair := by
  cases h0 : modeFlagIsZero (getForwardMode pair env.envForwardMode) 0 with
  | true => rw [qqPolicy_mode_drop env msg pair h0]; simp
  | false => rw [qqPolicy_blocked env msg pair h0 h1]; simp

end NapGram

namespace NapGram

/-! ## Claims about duplicate suppression and the QQ relay pipeline -/

/-- Claim C4: an inbound QQ message whose id is already marked seen is
dropped immediately — the trace is just the duplicate drop, with no pair
lookup and no enqueued send, and the dedup state is untouched; a message
that is processed marks its id seen, so a second event with the same id
within the 30s TTL is dropped the same way; and the mark expires exactly
30s after it is set (for any well-formed dedup state), after which the id is
no longer seen. -/
theorem claim_C4_dedup_ttl :
    (∀ (env : QQEnv) (entries : List (String × Nat)) (now : Nat) (msg : QQMsg),
        seenB entries msg.id now = true →
        handleQQMessage env entries now msg = ([Effect.dropDuplicate], entries) ∧
        (∀ c, Effect.pairLookup c ∉ (handleQQMessage env entries now msg).1) ∧
        (∀ r, Effect.enqueueSend r ∉ (handleQQMessage env entries now msg).1)) ∧
    (∀ (env env2 : QQEnv) (entries : List (String × Nat)) (now : Nat)
        (msg msg2 : QQMsg),
        seenB entries msg.id now = false → msg2.id = msg.id →
        ∀ t2, now ≤ t2 → t2 < now + DEDUP_TTL_MS →
        handleQQMessage env2 (handleQQMessage env entries now msg).2 t2 msg2 =
          ([Effect.dropDuplicate], (handleQQMessage env entries now msg).2)) ∧
    (∀ (entries : List (String × Nat)) (now : Nat) (id : String),
        dedupWF entries now →
        ∀ t2, now + DEDUP_TTL_MS ≤ t2 →
        seenB (markSeen entries id now) id t2 = false) := by
  refine ⟨?_, ?_, ?_⟩
  · intro env entries now msg h
    rw [handleQQ_seen env entries now msg h]
    exact ⟨rfl, fun c => by simp, fun r => by simp⟩
  · intro env env2 entries now msg msg2 h hid t2 h1 h2
    rw [handleQQ_new env entries now msg h]
    have hseen : seenB (markSeen entries msg.id now) msg2.id t2 = true := by
      simp [seenB, markSeen, hid, h2]
    rw [handleQQ_seen env2 _ t2 msg2 hseen]
  · intro entries now id hwf t2 ht
    have hlt : ¬ t2 < now + DEDUP_TTL_MS := by omega
    simp only [seenB, markSeen, List.any_cons, Bool.or_eq_false_iff]
    constructor
    · simp [hlt]
    · rw [List.any_eq_false]
      intro e he
      have := hwf e he
      simp only [Bool.and_eq_true, decide_eq_true_eq, not_and]
      intro _
      omega

/-- Witness for C4: a message whose id was marked seen 1s ago is dropped
with an untouched state, and the mark is gone at the 30s boundary. -/
theorem claim_C4_dedup_ttl_witness :
    (handleQQMessage c4Env c4Entries 1000 c4Msg =
      ([Effect.dropDuplicate], c4Entries)) ∧
    seenB (markSeen [] "m1" 0) "m1" DEDUP_TTL_MS = false :=
  ⟨(claim_C4_dedup_ttl.1 c4Env c4Entries 1000 c4Msg (by decide)).1,
   claim_C4_dedup_ttl.2.2 [] 0 "m1" (by intro e he; simp at he) DEDUP_TTL_MS
     (by omega)⟩

/-- Claim C5: a pair whose `forwardMode` is `"01"` produces zero enqueued
sends for a message originating on the QQ side of that pair, and a pair
whose `forwardMode` is `"10"` never reaches the TG→QQ handler for a message
originating on the Telegram side. -/
theorem claim_C5_forward_mode_gates :
    (∀ (env : QQEnv) (entries : List (String × Nat)) (now : Nat) (msg : QQMsg)
        (pair : ForwardPairRecord),
        env.findByQQ msg.chatId = some pair →
        pair.forwardMode = some "01" →
        ∀ r, Effect.enqueueSend r ∉ (handleQQMessage env entries now msg).1) ∧
    (∀ (envForwardMode : String)
        (findByTG : Int → Option Nat → Bool → Option ForwardPairRecord)
        (msg : TgMsg) (pair : ForwardPairRecord),
        findByTG msg.chatId msg.threadId (tgThreadFalsy msg.threadId) = some pair →
        pair.forwardMode = some "10" →
        TgEffect.invokeTgHandler ∉ handleTgMessage envForwardMode findByTG msg) := by
  constructor
  · intro env entries now msg pair hp hm r
    have hmode : getForwardMode pair env.envForwardMode = "01" := by
      simp [getForwardMode, hm]
    cases hseen : seenB entries msg.id now with
    | true => rw [handleQQ_seen env entries now msg hseen]; simp
    | false =>
      rw [handleQQ_new env entries now msg hseen]
      cases hcmd : startsWithStr (trimStr (joinText msg.content)) "/" with
      | true => rw [qqPipeline_command env msg hcmd]; simp
      | false =>
        rw [qqPipeline_pair env msg pair hcmd hp,
          qqPolicy_mode_drop env msg pair (by rw [hmode]; decide)]
        simp
  · intro envForwardMode findByTG msg pair hp hm
    have hmode : getForwardMode pair envForwardMode = "10" := by
      simp [getForwardMode, hm]
    rw [handleTgMessage, hp]
    cases hcmd : startsWithStr (trimStr msg.rawText) "/" with
    | true => simp [hcmd]
    | false =>
      have hz : modeFlagIsZero "10" 1 = true := by decide
      simp [hcmd, hmode, hz]

/-- Witness for C5: with mode `"01"` a QQ-side message enqueues nothing;
with mode `"10"` a TG-side message never reaches the TG→QQ handler. -/
theorem claim_C5_forward_mode_gates_witness :
    (Effect.enqueueSend none ∉ (handleQQMessage c5Env [] 0 c5Msg).1) ∧
    (TgEffect.invokeTgHandler ∉
      handleTgMessage "11" (fun _ _ _ => some c5PairTG) c5TgMsg) :=
  ⟨claim_C5_forward_mode_gates.1 c5Env [] 0 c5Msg c5PairQQ rfl rfl none,
   claim_C5_forward_mode_gates.2 "11" (fun _ _ _ => some c5PairTG) c5TgMsg
     c5PairTG rfl rfl⟩

end NapGram

namespace NapGram

/-- Counterexample to claim C7 as stated: the invalid pattern is not logged
only once per pair — processing a second message against the same pair logs
the invalid pattern again (the source recompiles the regex and warns on
every message). -/
theorem claim_C7_counterexample :
    (handleQQMessage c7Env [] 0 c7Msg1).1.count (Effect.logInvalidRegex "(") = 1 ∧
    (handleQQMessage c7Env (handleQQMessage c7Env [] 0 c7Msg1).2 1000
        c7Msg2).1.count (Effect.logInvalidRegex "(") = 1 := by
  constructor <;> decide

/-- Claim C7 (amended): a pair's invalid `ignoreRegex` pattern is logged on
every message evaluated against it and treated as matching nothing — the
message is still forwarded (a send is enqueued); and the sender-blocklist
and regex filters are evaluated before any send: a blocklisted sender or a
matching valid regex yields a trace with no enqueued send at all. -/
theorem claim_C7_amended_invalid_regex :
    (∀ (env : QQEnv) (entries : List (String × Nat)) (now : Nat) (msg : QQMsg)
        (pair : ForwardPairRecord) (p : String),
        seenB entries msg.id now = false →
        startsWithStr (trimStr (joinText msg.content)) "/" = false →
        env.findByQQ msg.chatId = some pair →
        modeFlagIsZero (getForwardMode pair env.envForwardMode) 0 = false →
        isBlockedSender pair msg.senderId = false →
        pair.ignoreRegex = some p → p ≠ "" →
        env.compile p = RegexCompile.invalid →
        Effect.logInvalidRegex p ∈ (handleQQMessage env entries now msg).1 ∧
        Effect.enqueueSend
            (resolveQQReply env.store pair.instanceId pair.qqRoomId msg.content) ∈
          (handleQQMessage env entries now msg).1) ∧
    (∀ (env : QQEnv) (entries : List (String × Nat)) (now : Nat) (msg : QQMsg)
        (pair : ForwardPairRecord),
        env.findByQQ msg.chatId = some pair →
        isBlockedSender pair msg.senderId = true →
        ∀ r, Effect.enqueueSend r ∉ (handleQQMessage env entries now msg).1) ∧
    (∀ (env : QQEnv) (entries : List (String × Nat)) (now : Nat) (msg : QQMsg)
        (pair : ForwardPairRecord) (p : String) (test : String → Bool),
        env.findByQQ msg.chatId = some pair →
        pair.ignoreRegex = some p → p ≠ "" →
        env.compile p = RegexCompile.valid test →
        test (joinText msg.content) = true →
        ∀ r, Effect.enqueueSend r ∉ (handleQQMessage env entries now msg).1) := by
  refine ⟨?_, ?_, ?_⟩
  · intro env entries now msg pair p hseen hcmd hp h0 h1 hr hpne hc
    have hrf : regexFilter env pair (joinText msg.content) =
        ([Effect.logInvalidRegex p], false) :=
      regexFilter_invalid env pair (joinText msg.content) p hr hpne hc
    rw [handleQQ_new env entries now msg hseen,
      qqPipeline_pair env msg pair hcmd hp,
      qqPolicy_send env msg pair h0 h1 (by rw [hrf])]
    rw [hrf]
    constructor <;> simp
  · intro env entries now msg pair hp h1 r
    cases hseen : seenB entries msg.id now with
    | true => rw [handleQQ_seen env entries now msg hseen]; simp
    | false =>
      rw [handleQQ_new env entries now msg hseen]
      cases hcmd : startsWithStr (trimStr (joinText msg.content)) "/" with
      | true => rw [qqPipeline_command env msg hcmd]; simp
      | false =>
        rw [qqPipeline_pair env msg pair hcmd hp]
        simp only [List.mem_cons, not_or]
        refine ⟨by simp, by simp, by simp, ?_⟩
        exact enqueue_not_mem_qqPolicy_of_blocked env msg pair h1 r
  · intro env entries now msg pair p test hp hr hpne hc htest r
    cases hseen : seenB entries msg.id now with
    | true => rw [handleQQ_seen env entries now msg hseen]; simp
    | false =>
      rw [handleQQ_new env entries now msg hseen]
      cases hcmd : startsWithStr (trimStr (joinText msg.content)) "/" with
      | true => rw [qqPipeline_command env msg hcmd]; simp
      | false =>
        rw [qqPipeline_pair env msg pair hcmd hp]
        simp only [List.mem_cons, not_or]
        refine ⟨by simp, by simp, by simp, ?_⟩
        have hrf : regexFilter env pair (joinText msg.content) =
            ([Effect.dropRegexMatched], true) := by
          simp [regexFilter, hr, hpne, hc, htest]
        cases h0 : modeFlagIsZero (getForwardMode pair env.envForwardMode) 0 with
        | true => rw [qqPolicy_mode_drop env msg pair h0]; simp
        | false =>
          cases h1 : isBlockedSender pair msg.senderId with
          | true => rw [qqPolicy_blocked env msg pair h0 h1]; simp
          | false =>
            rw [qqPolicy_regex_drop env msg pair h0 h1 (by rw [hrf]), hrf]
            simp

/-- Witness for the amended C7: the concrete invalid-pattern run logs the
pattern and still enqueues the send. -/
theorem claim_C7_amended_invalid_regex_witness :
    Effect.logInvalidRegex "(" ∈ (handleQQMessage c7Env [] 0 c7Msg1).1 ∧
    Effect.enqueueSend
        (resolveQQReply c7Env.store c7Pair.instanceId c7Pair.qqRoomId
          c7Msg1.content) ∈
      (handleQQMessage c7Env [] 0 c7Msg1).1 :=
  claim_C7_amended_invalid_regex.1 c7Env [] 0 c7Msg1 c7Pair "(" (by decide)
    (by decide) rfl (by decide) rfl rfl (by decide) rfl

/-- Claim C9: when an inbound QQ message references a reply-to id for which
the correlation store has no row for that pair, the resolver yields `none`
and the relay still enqueues the send as a non-reply message. -/
theorem claim_C9_missing_reply_correlation
    (env : QQEnv) (entries : List (String × Nat)) (now : Nat) (msg : QQMsg)
    (pair : ForwardPairRecord) (rid : String)
    (hrid : findReplyId msg.content = some rid)
    (habs : ∀ c ∈ env.store,
      ¬(c.instanceId = pair.instanceId ∧ c.roomA = pair.qqRoomId ∧
        c.nativeIdA = rid)) :
    resolveQQReply env.store pair.instanceId pair.qqRoomId msg.content = none ∧
    (seenB entries msg.id now = false →
      startsWithStr (trimStr (joinText msg.content)) "/" = false →
      env.findByQQ msg.chatId = some pair →
      modeFlagIsZero (getForwardMode pair env.envForwardMode) 0 = false →
      isBlockedSender pair msg.senderId = false →
      (regexFilter env pair (joinText msg.content)).2 = false →
      Effect.enqueueSend none ∈ (handleQQMessage env entries now msg).1) := by
  have hres : resolveQQReply env.store pair.instanceId pair.qqRoomId msg.content
      = none := by
    rw [resolveQQReply, hrid]
    dsimp only
    have hfind : env.store.find? (fun c =>
        c.instanceId = pair.instanceId && c.roomA = pair.qqRoomId &&
          c.nativeIdA = rid) = none := by
      rw [List.find?_eq_none]
      intro c hc
      have := habs c hc
      simp only [Bool.and_eq_true, decide_eq_true_eq]
      tauto
    rw [hfind]
  refine ⟨hres, ?_⟩
  intro hseen hcmd hp h0 h1 h2
  rw [handleQQ_new env entries now msg hseen,
    qqPipeline_pair env msg pair hcmd hp,
    qqPolicy_send env msg pair h0 h1 h2, hres]
  simp

/-- Witness for C9: with an empty store the reply resolves to `none` and
the send is still enqueued as a non-reply. -/
theorem claim_C9_missing_reply_correlation_witness :
    resolveQQReply c9Env.store c9Pair.instanceId c9Pair.qqRoomId c9Msg.content
        = none ∧
    Effect.enqueueSend none ∈ (handleQQMessage c9Env [] 0 c9Msg).1 :=
  ⟨(claim_C9_missing_reply_correlation c9Env [] 0 c9Msg c9Pair "orig-1" rfl
      (by intro c hc; simp [c9Env] at hc)).1,
   (claim_C9_missing_reply_correlation c9Env [] 0 c9Msg c9Pair "orig-1" rfl
      (by intro c hc; simp [c9Env] at hc)).2 (by decide) (by decide) rfl
     (by decide) rfl (by decide)⟩

end NapGram

namespace NapGram

/-! ## Claim about directory binding -/

theorem filter_singleton_len_le_one (p : BindRecord → Bool) (x : BindRecord) :
    ([x].filter p).length ≤ 1 := by
  by_cases h : p x = true <;> simp [List.filter, h]

theorem eq_of_mem_len_le_one {l : List BindRecord} {a b : BindRecord}
    (ha : a ∈ l) (hb : b ∈ l) (hl : l.length ≤ 1) : a = b := by
  match l with
  | [] => simp at ha
  | [x] =>
    simp at ha hb
    rw [ha, hb]
  | x :: y :: rest => simp at hl

/-- Claim C6: a bind attempt on a `(chat, thread)` destination already bound
to a different room returns the existing conflicting record and leaves the
directory unchanged, which therefore keeps exactly one record for that
destination; the at-most-one-binding invariant is preserved by every bind,
and under it a destination is bound to at most one room. -/
theorem claim_C6_bind_conflict (dir : List BindRecord) (roomId : String)
    (chatId : Int) (threadId : Option Nat) (r : BindRecord) :
    (dir.find? (bindKeyMatch chatId threadId) = some r → r.roomIdA ≠ roomId →
      bind dir roomId chatId threadId = (r, dir)) ∧
    (dir.find? (bindKeyMatch chatId threadId) = some r → atMostOneBinding dir →
      (((bind dir roomId chatId threadId).2.filter
          (bindKeyMatch chatId threadId)).length = 1)) ∧
    (atMostOneBinding dir → atMostOneBinding (bind dir roomId chatId threadId).2) ∧
    (atMostOneBinding dir →
      ∀ r1 ∈ dir, ∀ r2 ∈ dir,
        bindKeyMatch chatId threadId r1 = true →
        bindKeyMatch chatId threadId r2 = true → r1.roomIdA = r2.roomIdA) := by
  refine ⟨?_, ?_, ?_, ?_⟩
  · intro hfind _
    rw [bind, hfind]
  · intro hfind hinv
    rw [bind, hfind]
    dsimp only
    have hmem : r ∈ dir := List.mem_of_find?_eq_some hfind
    have hkey : bindKeyMatch chatId threadId r = true := List.find?_some hfind
    have hmemf : r ∈ dir.filter (bindKeyMatch chatId threadId) :=
      List.mem_filter.mpr ⟨hmem, hkey⟩
    have h0 : 0 < (dir.filter (bindKeyMatch chatId threadId)).length :=
      List.length_pos.mpr (List.ne_nil_of_mem hmemf)
    have h1 := hinv chatId threadId
    omega
  · intro hinv
    rw [bind]
    cases hfind : dir.find? (bindKeyMatch chatId threadId) with
    | some r0 => exact hinv
    | none =>
      intro c t
      rw [List.filter_append, List.length_append]
      by_cases hct : c = chatId ∧ t = threadId
      · obtain ⟨rfl, rfl⟩ := hct
        have hnil : dir.filter (bindKeyMatch c t) = [] := by
          rw [List.filter_eq_nil_iff]
          intro x hx
          have := List.find?_eq_none.mp hfind x hx
          simp at this
          simp [this]
        rw [hnil]
        have := filter_singleton_len_le_one (bindKeyMatch c t) ⟨roomId, c, t⟩
        simp only [List.length_nil]
        omega
      · have hfalse : bindKeyMatch c t ⟨roomId, chatId, threadId⟩ = false := by
          simp only [bindKeyMatch, Bool.and_eq_false_iff, decide_eq_false_iff_not]
          by_cases h1 : chatId = c
          · right
            intro h2
            exact hct ⟨h1.symm, h2.symm⟩
          · left
            exact h1
        have hnil2 : ([(⟨roomId, chatId, threadId⟩ : BindRecord)].filter
            (bindKeyMatch c t)).length = 0 := by
          simp [List.filter, hfalse]
        rw [hnil2]
        have := hinv c t
        omega
  · intro hinv r1 h1 r2 h2 hk1 hk2
    have hm1 : r1 ∈ dir.filter (bindKeyMatch chatId threadId) :=
      List.mem_filter.mpr ⟨h1, hk1⟩
    have hm2 : r2 ∈ dir.filter (bindKeyMatch chatId threadId) :=
      List.mem_filter.mpr ⟨h2, hk2⟩
    rw [eq_of_mem_len_le_one hm1 hm2 (hinv chatId threadId)]

/-- Witness for C6: binding room 6 to the already-bound chat 100 returns
the room-5 record with the directory unchanged, and that directory keeps
exactly one record for `(100, none)`. -/
theorem claim_C6_bind_conflict_witness :
    bind c6Dir "6" 100 none = (⟨"5", 100, none⟩, c6Dir) ∧
    ((bind c6Dir "6" 100 none).2.filter (bindKeyMatch 100 none)).length = 1 :=
  ⟨(claim_C6_bind_conflict c6Dir "6" 100 none ⟨"5", 100, none⟩).1 (by decide)
      (by decide),
   (claim_C6_bind_conflict c6Dir "6" 100 none ⟨"5", 100, none⟩).2.1 (by decide)
      (by intro c t; exact filter_singleton_len_le_one (bindKeyMatch c t) ⟨"5", 100, none⟩)⟩

end NapGram

namespace NapGram

/-! ## Claim C8: mention resolution -/

/-- Counterexample to claim C8 as stated: the second `at` segment supplies
the nonempty name `"Bob"` (different from the raw id `"5"`), so the stated
priority would keep `"Bob"`; the code instead overwrites it with the
per-message cached resolution `"Alice"` of the first segment — the cache
takes precedence over a later segment's own supplied name. -/
theorem claim_C8_counterexample :
    (populateAtDisplayNames c8LookupFail "group" c8Content).1 =
      [MessageContent.atSeg "5" (some "Alice"), MessageContent.atSeg "5" (some "Alice")] ∧
    (some "Alice" : Option String) ≠ some "Bob" := by
  constructor <;> decide

theorem assocFind_cons (k v : String) (cache : List (String × String))
    (key : String) :
    assocFind ((k, v) :: cache) key = if k = key then some v else assocFind cache key :=
  rfl

theorem firstAt_cons_at (uid : String) (n : Option String)
    (rest : List MessageContent) (uid2 : String) :
    firstAt (MessageContent.atSeg uid n :: rest) uid2 =
      if uid = uid2 then some n else firstAt rest uid2 :=
  rfl

theorem firstAt_cons_text (t : String) (rest : List MessageContent) (uid : String) :
    firstAt (MessageContent.text t :: rest) uid = firstAt rest uid :=
  rfl

theorem firstAt_cons_reply (mid : String) (rest : List MessageContent) (uid : String) :
    firstAt (MessageContent.reply mid :: rest) uid = firstAt rest uid :=
  rfl

theorem firstAt_cons_other (rest : List MessageContent) (uid : String) :
    firstAt (MessageContent.other :: rest) uid = firstAt rest uid :=
  rfl

theorem priorityResolve_provided (lookup : String → Except Unit MemberInfo)
    (uid : String) (n : Option String)
    (h : trimStr (n.getD "") ≠ "" ∧ trimStr (n.getD "") ≠ uid) :
    priorityResolve lookup uid n = trimStr (n.getD "") := by
  rw [priorityResolve]
  rw [if_pos h]

theorem priorityResolve_ok (lookup : String → Except Unit MemberInfo)
    (uid : String) (n : Option String) (info : MemberInfo)
    (hp : ¬(trimStr (n.getD "") ≠ "" ∧ trimStr (n.getD "") ≠ uid))
    (hlk : lookup uid = Except.ok info) :
    priorityResolve lookup uid n =
      orElseStr (optTrim info.card) (orElseStr (optTrim info.nickname) uid) := by
  rw [priorityResolve]
  rw [if_neg hp, hlk]

theorem priorityResolve_err (lookup : String → Except Unit MemberInfo)
    (uid : String) (n : Option String) (u : Unit)
    (hp : ¬(trimStr (n.getD "") ≠ "" ∧ trimStr (n.getD "") ≠ uid))
    (hlk : lookup uid = Except.error u) :
    priorityResolve lookup uid n = orElseStr (trimStr (n.getD "")) uid := by
  rw [priorityResolve]
  rw [if_neg hp, hlk]

theorem orElseStr_ne_empty (a b : String) (hb : b ≠ "") : orElseStr a b ≠ "" := by
  rw [orElseStr]
  split
  · exact hb
  · assumption

theorem priorityResolve_ne_empty (lookup : String → Except Unit MemberInfo)
    (uid : String) (n : Option String) (hu : uid ≠ "") :
    priorityResolve lookup uid n ≠ "" := by
  rw [priorityResolve]
  split
  · next h => exact h.1
  · cases hlk : lookup uid with
    | ok info => exact orElseStr_ne_empty _ _ (orElseStr_ne_empty _ _ hu)
    | error u => exact orElseStr_ne_empty _ _ hu

theorem populateAux_nil (lookup : String → Except Unit MemberInfo)
    (cache : List (String × String)) :
    populateAux lookup [] cache = ([], cache, []) :=
  rfl

theorem populateAux_text (lookup : String → Except Unit MemberInfo)
    (t : String) (rest : List MessageContent) (cache : List (String × String)) :
    populateAux lookup (MessageContent.text t :: rest) cache =
      (MessageContent.text t :: (populateAux lookup rest cache).1,
       (populateAux lookup rest cache).2.1, (populateAux lookup rest cache).2.2) :=
  rfl

theorem populateAux_reply (lookup : String → Except Unit MemberInfo)
    (mid : String) (rest : List MessageContent) (cache : List (String × String)) :
    populateAux lookup (MessageContent.reply mid :: rest) cache =
      (MessageContent.reply mid :: (populateAux lookup rest cache).1,
       (populateAux lookup rest cache).2.1, (populateAux lookup rest cache).2.2) :=
  rfl

theorem populateAux_other (lookup : String → Except Unit MemberInfo)
    (rest : List MessageContent) (cache : List (String × String)) :
    populateAux lookup (MessageContent.other :: rest) cache =
      (MessageContent.other :: (populateAux lookup rest cache).1,
       (populateAux lookup rest cache).2.1, (populateAux lookup rest cache).2.2) :=
  rfl

theorem populateAux_at_skip (lookup : String → Except Unit MemberInfo)
    (uid : String) (n : Option String) (rest : List MessageContent)
    (cache : List (String × String)) (h : (uid = "" || uid = "all") = true) :
    populateAux lookup (MessageContent.atSeg uid n :: rest) cache =
      (MessageContent.atSeg uid n :: (populateAux lookup rest cache).1,
       (populateAux lookup rest cache).2.1, (populateAux lookup rest cache).2.2) := by
  simp only [populateAux, h]
  rfl

theorem populateAux_at_hit (lookup : String → Except Unit MemberInfo)
    (uid : String) (n : Option String) (rest : List MessageContent)
    (cache : List (String × String)) (v : String)
    (h : (uid = "" || uid = "all") = false)
    (hcache : assocFind cache uid = some v) (hv : v ≠ "") :
    populateAux lookup (MessageContent.atSeg uid n :: rest) cache =
      (MessageContent.atSeg uid (some v) :: (populateAux lookup rest cache).1,
       (populateAux lookup rest cache).2.1, (populateAux lookup rest cache).2.2) := by
  simp only [populateAux, h, hcache, hv]
  rfl

theorem populateAux_at_provided (lookup : String → Except Unit MemberInfo)
    (uid : String) (n : Option String) (rest : List MessageContent)
    (cache : List (String × String))
    (h : (uid = "" || uid = "all") = false)
    (hcache : assocFind cache uid = none)
    (hp : trimStr (n.getD "") ≠ "" ∧ trimStr (n.getD "") ≠ uid) :
    populateAux lookup (MessageContent.atSeg uid n :: rest) cache =
      (MessageContent.atSeg uid (some (trimStr (n.getD ""))) ::
          (populateAux lookup rest ((uid, trimStr (n.getD "")) :: cache)).1,
       (populateAux lookup rest ((uid, trimStr (n.getD "")) :: cache)).2.1,
       (populateAux lookup rest ((uid, trimStr (n.getD "")) :: cache)).2.2) := by
  simp only [populateAux, h, hcache]
  simp [hp]

theorem populateAux_at_ok (lookup : String → Except Unit MemberInfo)
    (uid : String) (n : Option String) (rest : List MessageContent)
    (cache : List (String × String)) (info : MemberInfo)
    (h : (uid = "" || uid = "all") = false)
    (hcache : assocFind cache uid = none)
    (hp : ¬(trimStr (n.getD "") ≠ "" ∧ trimStr (n.getD "") ≠ uid))
    (hlk : lookup uid = Except.ok info) :
    populateAux lookup (MessageContent.atSeg uid n :: rest) cache =
      (MessageContent.atSeg uid
          (some (orElseStr (optTrim info.card)
            (orElseStr (optTrim info.nickname) uid))) ::
          (populateAux lookup rest
            ((uid, orElseStr (optTrim info.card)
              (orElseStr (optTrim info.nickname) uid)) :: cache)).1,
       (populateAux lookup rest
         ((uid, orElseStr (optTrim info.card)
           (orElseStr (optTrim info.nickname) uid)) :: cache)).2.1,
       uid :: (populateAux lookup rest
         ((uid, orElseStr (optTrim info.card)
           (orElseStr (optTrim info.nickname) uid)) :: cache)).2.2) := by
  simp only [populateAux, h, hcache, hlk]
  simp [hp]

theorem populateAux_at_err (lookup : String → Except Unit MemberInfo)
    (uid : String) (n : Option String) (rest : List MessageContent)
    (cache : List (String × String)) (u : Unit)
    (h : (uid = "" || uid = "all") = false)
    (hcache : assocFind cache uid = none)
    (hp : ¬(trimStr (n.getD "") ≠ "" ∧ trimStr (n.getD "") ≠ uid))
    (hlk : lookup uid = Except.error u) :
    populateAux lookup (MessageContent.atSeg uid n :: rest) cache =
      (MessageContent.atSeg uid (some (orElseStr (trimStr (n.getD "")) uid)) ::
          (populateAux lookup rest
            ((uid, orElseStr (trimStr (n.getD "")) uid) :: cache)).1,
       (populateAux lookup rest
         ((uid, orElseStr (trimStr (n.getD "")) uid) :: cache)).2.1,
       uid :: (populateAux lookup rest
         ((uid, orElseStr (trimStr (n.getD "")) uid) :: cache)).2.2) := by
  simp only [populateAux, h, hcache, hlk]
  simp [hp]

end NapGram

namespace NapGram

theorem populateAux_spec (lookup : String → Except Unit MemberInfo)
    (R : String → String) :
    ∀ (suf : List MessageContent) (cache : List (String × String)),
      (∀ uid v, (uid = "" || uid = "all") = false →
        assocFind cache uid = some v → v = R uid ∧ v ≠ "") →
      (∀ uid, (uid = "" || uid = "all") = false → assocFind cache uid = none →
        ∀ n, firstAt suf uid = some n → priorityResolve lookup uid n = R uid) →
      (populateAux lookup suf cache).1 = specMap R suf ∧
      (populateAux lookup suf cache).2.2.Nodup ∧
      (∀ u ∈ (populateAux lookup suf cache).2.2,
        (u = "" || u = "all") = false ∧ assocFind cache u = none) := by
  intro suf
  induction suf with
  | nil =>
    intro cache hsome hnone
    refine ⟨rfl, List.nodup_nil, ?_⟩
    intro u hu
    rw [populateAux_nil] at hu
    simp at hu
  | cons c rest ih =>
    intro cache hsome hnone
    cases c with
    | text t =>
      have hnone2 : ∀ uid, (uid = "" || uid = "all") = false →
          assocFind cache uid = none → ∀ n2, firstAt rest uid = some n2 →
          priorityResolve lookup uid n2 = R uid :=
        fun uid h1 h2 n2 hf => hnone uid h1 h2 n2 (by rw [firstAt_cons_text]; exact hf)
      obtain ⟨ha, hb, hc⟩ := ih cache hsome hnone2
      refine ⟨?_, ?_, ?_⟩
      · simp only [populateAux_text, specMap, List.map_cons]
        simp only [specMap] at ha
        rw [ha]
      · rw [populateAux_text]
        exact hb
      · intro u hu
        rw [populateAux_text] at hu
        exact hc u hu
    | reply mid =>
      have hnone2 : ∀ uid, (uid = "" || uid = "all") = false →
          assocFind cache uid = none → ∀ n2, firstAt rest uid = some n2 →
          priorityResolve lookup uid n2 = R uid :=
        fun uid h1 h2 n2 hf => hnone uid h1 h2 n2 (by rw [firstAt_cons_reply]; exact hf)
      obtain ⟨ha, hb, hc⟩ := ih cache hsome hnone2
      refine ⟨?_, ?_, ?_⟩
      · simp only [populateAux_reply, specMap, List.map_cons]
        simp only [specMap] at ha
        rw [ha]
      · rw [populateAux_reply]
        exact hb
      · intro u hu
        rw [populateAux_reply] at hu
        exact hc u hu
    | other =>
      have hnone2 : ∀ uid, (uid = "" || uid = "all") = false →
          assocFind cache uid = none → ∀ n2, firstAt rest uid = some n2 →
          priorityResolve lookup uid n2 = R uid :=
        fun uid h1 h2 n2 hf => hnone uid h1 h2 n2 (by rw [firstAt_cons_other]; exact hf)
      obtain ⟨ha, hb, hc⟩ := ih cache hsome hnone2
      refine ⟨?_, ?_, ?_⟩
      · simp only [populateAux_other, specMap, List.map_cons]
        simp only [specMap] at ha
        rw [ha]
      · rw [populateAux_other]
        exact hb
      · intro u hu
        rw [populateAux_other] at hu
        exact hc u hu
    | atSeg uid n =>
      cases hgood : (uid = "" || uid = "all") with
      | true =>
        have hbad : uid = "" ∨ uid = "all" := by
          simpa using hgood
        have hne : ∀ uid2, (uid2 = "" || uid2 = "all") = false → uid ≠ uid2 := by
          intro uid2 h2
          simp only [Bool.or_eq_false_iff, decide_eq_false_iff_not] at h2
          rcases hbad with rfl | rfl
          · exact fun hEq => h2.1 hEq.symm
          · exact fun hEq => h2.2 hEq.symm
        have hnone2 : ∀ uid2, (uid2 = "" || uid2 = "all") = false →
            assocFind cache uid2 = none → ∀ n2, firstAt rest uid2 = some n2 →
            priorityResolve lookup uid2 n2 = R uid2 := by
          intro uid2 h1 h2 n2 hf
          refine hnone uid2 h1 h2 n2 ?_
          rw [firstAt_cons_at, if_neg (hne uid2 h1)]
          exact hf
        obtain ⟨ha, hb, hc⟩ := ih cache hsome hnone2
        refine ⟨?_, ?_, ?_⟩
        · simp only [populateAux_at_skip lookup uid n rest cache hgood, specMap,
            List.map_cons, hgood]
          simp only [specMap] at ha
          rw [ha]
          simp
        · rw [populateAux_at_skip lookup uid n rest cache hgood]
          exact hb
        · intro u hu
          rw [populateAux_at_skip lookup uid n rest cache hgood] at hu
          exact hc u hu
      | false =>
        cases hcache : assocFind cache uid with
        | some v =>
          obtain ⟨hvR, hvne⟩ := hsome uid v hgood hcache
          have hnone2 : ∀ uid2, (uid2 = "" || uid2 = "all") = false →
              assocFind cache uid2 = none → ∀ n2, firstAt rest uid2 = some n2 →
              priorityResolve lookup uid2 n2 = R uid2 := by
            intro uid2 h1 h2 n2 hf
            have hneq : uid ≠ uid2 := by
              intro hEq
              rw [hEq, h2] at hcache
              exact Option.noConfusion hcache
            refine hnone uid2 h1 h2 n2 ?_
            rw [firstAt_cons_at, if_neg hneq]
            exact hf
          obtain ⟨ha, hb, hc⟩ := ih cache hsome hnone2
          refine ⟨?_, ?_, ?_⟩
          · simp only [populateAux_at_hit lookup uid n rest cache v hgood hcache hvne,
              specMap, List.map_cons, hgood]
            simp only [specMap] at ha
            rw [ha, hvR]
            simp
          · rw [populateAux_at_hit lookup uid n rest cache v hgood hcache hvne]
            exact hb
          · intro u hu
            rw [populateAux_at_hit lookup uid n rest cache v hgood hcache hvne] at hu
            exact hc u hu
        | none =>
          have hg2 : uid ≠ "" ∧ uid ≠ "all" := by
            simpa [Bool.or_eq_false_iff, decide_eq_false_iff_not] using hgood
          have hfirstEq : priorityResolve lookup uid n = R uid := by
            refine hnone uid hgood hcache n ?_
            rw [firstAt_cons_at, if_pos rfl]
          have hRne : R uid ≠ "" := by
            rw [← hfirstEq]
            exact priorityResolve_ne_empty lookup uid n hg2.1
          by_cases hp : trimStr (n.getD "") ≠ "" ∧ trimStr (n.getD "") ≠ uid
          · have hval : trimStr (n.getD "") = R uid := by
              rw [← hfirstEq, priorityResolve_provided lookup uid n hp]
            have hsome2 : ∀ uid2 v2, (uid2 = "" || uid2 = "all") = false →
                assocFind ((uid, trimStr (n.getD "")) :: cache) uid2 = some v2 →
                v2 = R uid2 ∧ v2 ≠ "" := by
              intro uid2 v2 h1 h2
              rw [assocFind_cons] at h2
              by_cases hEq : uid = uid2
              · rw [if_pos hEq] at h2
                have hv2 : v2 = trimStr (n.getD "") := (Option.some.injEq _ _ ▸ h2).symm
                subst hEq
                exact ⟨by rw [hv2, hval], by rw [hv2]; exact hp.1⟩
              · rw [if_neg hEq] at h2
                exact hsome uid2 v2 h1 h2
            have hnone2 : ∀ uid2, (uid2 = "" || uid2 = "all") = false →
                assocFind ((uid, trimStr (n.getD "")) :: cache) uid2 = none →
                ∀ n2, firstAt rest uid2 = some n2 →
                priorityResolve lookup uid2 n2 = R uid2 := by
              intro uid2 h1 h2 n2 hf
              rw [assocFind_cons] at h2
              by_cases hEq : uid = uid2
              · rw [if_pos hEq] at h2
                exact Option.noConfusion h2
              · rw [if_neg hEq] at h2
                refine hnone uid2 h1 h2 n2 ?_
                rw [firstAt_cons_at, if_neg hEq]
                exact hf
            obtain ⟨ha, hb, hc⟩ := ih ((uid, trimStr (n.getD "")) :: cache) hsome2 hnone2
            refine ⟨?_, ?_, ?_⟩
            · simp only [populateAux_at_provided lookup uid n rest cache hgood hcache hp,
                specMap, List.map_cons, hgood]
              simp only [specMap] at ha
              rw [ha, hval]
              simp
            · rw [populateAux_at_provided lookup uid n rest cache hgood hcache hp]
              exact hb
            · intro u hu
              rw [populateAux_at_provided lookup uid n rest cache hgood hcache hp] at hu
              obtain ⟨hug, huc⟩ := hc u hu
              rw [assocFind_cons] at huc
              refine ⟨hug, ?_⟩
              by_cases hEq : uid = u
              · rw [if_pos hEq] at huc
                exact Option.noConfusion huc
              · rw [if_neg hEq] at huc
                exact huc
          · cases hlk : lookup uid with
            | ok info =>
              have hval : orElseStr (optTrim info.card)
                  (orElseStr (optTrim info.nickname) uid) = R uid := by
                rw [← hfirstEq, priorityResolve_ok lookup uid n info hp hlk]
              have hsome2 : ∀ uid2 v2, (uid2 = "" || uid2 = "all") = false →
                  assocFind ((uid, orElseStr (optTrim info.card)
                    (orElseStr (optTrim info.nickname) uid)) :: cache) uid2 = some v2 →
                  v2 = R uid2 ∧ v2 ≠ "" := by
                intro uid2 v2 h1 h2
                rw [assocFind_cons] at h2
                by_cases hEq : uid = uid2
                · rw [if_pos hEq] at h2
                  have hv2 : v2 = orElseStr (optTrim info.card)
                      (orElseStr (optTrim info.nickname) uid) :=
                    (Option.some.injEq _ _ ▸ h2).symm
                  subst hEq
                  exact ⟨by rw [hv2, hval], by rw [hv2, hval]; exact hRne⟩
                · rw [if_neg hEq] at h2
                  exact hsome uid2 v2 h1 h2
              have hnone2 : ∀ uid2, (uid2 = "" || uid2 = "all") = false →
                  assocFind ((uid, orElseStr (optTrim info.card)
                    (orElseStr (optTrim info.nickname) uid)) :: cache) uid2 = none →
                  ∀ n2, firstAt rest uid2 = some n2 →
                  priorityResolve lookup uid2 n2 = R uid2 := by
                intro uid2 h1 h2 n2 hf
                rw [assocFind_cons] at h2
                by_cases hEq : uid = uid2
                · rw [if_pos hEq] at h2
                  exact Option.noConfusion h2
                · rw [if_neg hEq] at h2
                  refine hnone uid2 h1 h2 n2 ?_
                  rw [firstAt_cons_at, if_neg hEq]
                  exact hf
              obtain ⟨ha, hb, hc⟩ := ih ((uid, orElseStr (optTrim info.card)
                (orElseStr (optTrim info.nickname) uid)) :: cache) hsome2 hnone2
              have hnotin : uid ∉ (populateAux lookup rest
                  ((uid, orElseStr (optTrim info.card)
                    (orElseStr (optTrim info.nickname) uid)) :: cache)).2.2 := by
                intro hin
                obtain ⟨_, huc⟩ := hc uid hin
                rw [assocFind_cons, if_pos rfl] at huc
                exact Option.noConfusion huc
              refine ⟨?_, ?_, ?_⟩
              · simp only [populateAux_at_ok lookup uid n rest cache info hgood hcache
                  hp hlk, specMap, List.map_cons, hgood]
                simp only [specMap] at ha
                rw [ha, hval]
                simp
              · rw [populateAux_at_ok lookup uid n rest cache info hgood hcache hp hlk]
                exact List.Nodup.cons hnotin hb
              · intro u hu
                rw [populateAux_at_ok lookup uid n rest cache info hgood hcache hp hlk]
                  at hu
                rcases List.mem_cons.mp hu with rfl | hu2
                · exact ⟨hgood, hcache⟩
                · obtain ⟨hug, huc⟩ := hc u hu2
                  rw [assocFind_cons] at huc
                  refine ⟨hug, ?_⟩
                  by_cases hEq : uid = u
                  · rw [if_pos hEq] at huc
                    exact Option.noConfusion huc
                  · rw [if_neg hEq] at huc
                    exact huc
            | error u0 =>
              have hval : orElseStr (trimStr (n.getD "")) uid = R uid := by
                rw [← hfirstEq, priorityResolve_err lookup uid n u0 hp hlk]
              have hsome2 : ∀ uid2 v2, (uid2 = "" || uid2 = "all") = false →
                  assocFind ((uid, orElseStr (trimStr (n.getD "")) uid) :: cache)
                    uid2 = some v2 →
                  v2 = R uid2 ∧ v2 ≠ "" := by
                intro uid2 v2 h1 h2
                rw [assocFind_cons] at h2
                by_cases hEq : uid = uid2
                · rw [if_pos hEq] at h2
                  have hv2 : v2 = orElseStr (trimStr (n.getD "")) uid :=
                    (Option.some.injEq _ _ ▸ h2).symm
                  subst hEq
                  exact ⟨by rw [hv2, hval], by rw [hv2, hval]; exact hRne⟩
                · rw [if_neg hEq] at h2
                  exact hsome uid2 v2 h1 h2
              have hnone2 : ∀ uid2, (uid2 = "" || uid2 = "all") = false →
                  assocFind ((uid, orElseStr (trimStr (n.getD "")) uid) :: cache)
                    uid2 = none →
                  ∀ n2, firstAt rest uid2 = some n2 →
                  priorityResolve lookup uid2 n2 = R uid2 := by
                intro uid2 h1 h2 n2 hf
                rw [assocFind_cons] at h2
                by_cases hEq : uid = uid2
                · rw [if_pos hEq] at h2
                  exact Option.noConfusion h2
                · rw [if_neg hEq] at h2
                  refine hnone uid2 h1 h2 n2 ?_
                  rw [firstAt_cons_at, if_neg hEq]
                  exact hf
              obtain ⟨ha, hb, hc⟩ := ih ((uid, orElseStr (trimStr (n.getD "")) uid)
                :: cache) hsome2 hnone2
              have hnotin : uid ∉ (populateAux lookup rest
                  ((uid, orElseStr (trimStr (n.getD "")) uid) :: cache)).2.2 := by
                intro hin
                obtain ⟨_, huc⟩ := hc uid hin
                rw [assocFind_cons, if_pos rfl] at huc
                exact Option.noConfusion huc
              refine ⟨?_, ?_, ?_⟩
              · simp only [populateAux_at_err lookup uid n rest cache u0 hgood hcache
                  hp hlk, specMap, List.map_cons, hgood]
                simp only [specMap] at ha
                rw [ha, hval]
                simp
              · rw [populateAux_at_err lookup uid n rest cache u0 hgood hcache hp hlk]
                exact List.Nodup.cons hnotin hb
              · intro u hu
                rw [populateAux_at_err lookup uid n rest cache u0 hgood hcache hp hlk]
                  at hu
                rcases List.mem_cons.mp hu with rfl | hu2
                · exact ⟨hgood, hcache⟩
                · obtain ⟨hug, huc⟩ := hc u hu2
                  rw [assocFind_cons] at huc
                  refine ⟨hug, ?_⟩
                  by_cases hEq : uid = u
                  · rw [if_pos hEq] at huc
                    exact Option.noConfusion huc
                  · rw [if_neg hEq] at huc
                    exact huc

end NapGram

namespace NapGram

/-- Claim C8 (amended): for group messages, `populateAtDisplayNames`
resolves the first `at` segment of each user id with priority
supplied-name > lookup (card, then nickname) > raw id, and every later
`at` segment with the same id receives that first resolution (the
per-message cache takes precedence over the later segment's own supplied
name); the platform lookup is performed at most once per user id within one
message; a failed lookup (when the supplied name is empty or equals the raw
id) falls back to the raw id and never throws; non-group messages are left
untouched. -/
theorem claim_C8_amended_mention_resolution :
    (∀ (lookup : String → Except Unit MemberInfo) (content : List MessageContent),
        (populateAtDisplayNames lookup "group" content).1 =
          populateSpec lookup content ∧
        (populateAtDisplayNames lookup "group" content).2.Nodup) ∧
    (∀ (lookup : String → Except Unit MemberInfo) (chatType : String)
        (content : List MessageContent), chatType ≠ "group" →
        populateAtDisplayNames lookup chatType content = (content, [])) ∧
    (∀ (lookup : String → Except Unit MemberInfo) (uid : String)
        (p : Option String) (u : Unit), uid ≠ "" →
        lookup uid = Except.error u →
        (trimStr (p.getD "") = "" ∨ trimStr (p.getD "") = uid) →
        priorityResolve lookup uid p = uid) := by
  refine ⟨?_, ?_, ?_⟩
  · intro lookup content
    have key := populateAux_spec lookup
      (fun u => priorityResolve lookup u
        (match firstAt content u with | some p => p | none => none)) content []
      (fun uid v h1 h2 => by simp [assocFind] at h2)
      (fun uid h1 h2 n hf => by dsimp only; rw [hf])
    constructor
    · rw [populateAtDisplayNames, if_neg (by simp)]
      exact key.1
    · rw [populateAtDisplayNames, if_neg (by simp)]
      exact key.2.1
  · intro lookup chatType content h
    rw [populateAtDisplayNames, if_pos h]
  · intro lookup uid p u hne hlk hcase
    have hp : ¬(trimStr (p.getD "") ≠ "" ∧ trimStr (p.getD "") ≠ uid) := by tauto
    rw [priorityResolve_err lookup uid p u hp hlk]
    rcases hcase with h | h
    · rw [orElseStr, if_pos h]
    · rw [h, orElseStr]
      split <;> rfl

/-- Witness for the amended C8: the concrete group message resolves exactly
to the reference semantics, and a failed lookup with a trivial supplied name
falls back to the raw id. -/
theorem claim_C8_amended_mention_resolution_witness :
    (populateAtDisplayNames c8Lookup "group" c8WContent).1 =
      populateSpec c8Lookup c8WContent ∧
    priorityResolve c8LookupFail "7" (some " 7 ") = "7" :=
  ⟨(claim_C8_amended_mention_resolution.1 c8Lookup c8WContent).1,
   claim_C8_amended_mention_resolution.2.2 c8LookupFail "7" (some " 7 ") ()
     (by decide) rfl (Or.inr (by decide))⟩

end NapGram
